import Mathlib

/-!
Verification of the bed-inventory / booking core of the `googledev`
hospital-bed booking application.

The TypeScript `MemStorage` class (src/server/storage.ts) keeps five JS
`Map`s keyed by generated numeric ids.  A JS `Map` preserves insertion
order, `map.set k v` replaces the value in place when the key exists and
appends otherwise, and `Array.from(map.values()).find(p)` returns the
first value (in insertion order) satisfying `p`.  We model each map as an
insertion-ordered association list `List (Nat × α)` with exactly those
operations.  Fallible route handlers (src/server/routes.ts) return
`Except String β × MemStorage`.  The external hospital API
(src/server/services/hospitalApi.ts) is modelled by an oracle for the
health probe and the fetch response.
-/

namespace GoogleDev

/-- JS `Map.prototype.set`: replace in place when the key is present,
append otherwise. -/
def setEntry {α : Type} (m : List (Nat × α)) (k : Nat) (v : α) : List (Nat × α) :=
  if m.any (fun p => p.1 == k) then
    m.map (fun p => if p.1 == k then (k, v) else p)
  else
    m ++ [(k, v)]

/-- JS `Map.prototype.get`, as first entry with the given key. -/
def getEntry {α : Type} (m : List (Nat × α)) (k : Nat) : Option α :=
  (m.find? (fun p => p.1 == k)).map (·.2)

/-- The values of a map in insertion order (`Array.from(m.values())`). -/
def vals {α : Type} (m : List (Nat × α)) : List α := m.map (·.2)

/-- The keys of a map in insertion order. -/
def keys {α : Type} (m : List (Nat × α)) : List Nat := m.map (·.1)

/-- JS string-keyed record assignment `rec[k] = v`. -/
def setAssoc (m : List (String × Nat)) (k : String) (v : Nat) : List (String × Nat) :=
  if m.any (fun p => p.1 == k) then
    m.map (fun p => if p.1 == k then (k, v) else p)
  else
    m ++ [(k, v)]

/-- JS string-keyed record lookup `rec[k]`. -/
def lookupAssoc (m : List (String × Nat)) (k : String) : Option Nat :=
  (m.find? (fun p => p.1 == k)).map (·.2)

/-- JS `x || null` on an optional string: `undefined` and `""` both map
to `null`. -/
def jsOrNull (o : Option String) : Option String :=
  match o with
  | some s => if s = "" then none else some s
  | none => none

/-- JS `x || d` on an optional string: `undefined` and `""` fall back to
the default. -/
def jsOrDefault (o : Option String) (d : String) : String :=
  match o with
  | some s => if s = "" then d else s
  | none => d

/-! ## Data model (shared/schema.ts) -/

structure User where
  id : Nat
  username : String
  password : String
  email : String
  name : String
  phone : Option String
  role : String
  deriving Repr, DecidableEq

structure InsertUser where
  username : String
  password : String
  email : String
  name : String
  phone : Option String := none
  role : Option String := none
  deriving Repr, DecidableEq

structure Hospital where
  id : Nat
  username : String
  password : String
  name : String
  email : String
  address : String
  city : String
  state : String
  zipCode : String
  phone : String
  website : Option String
  latitude : Option String
  longitude : Option String
  approved : Bool
  deriving Repr, DecidableEq

structure InsertHospital where
  username : String
  password : String
  name : String
  email : String
  address : String
  city : String
  state : String
  zipCode : String
  phone : String
  website : Option String := none
  latitude : Option String := none
  longitude : Option String := none
  deriving Repr, DecidableEq

structure BedType where
  id : Nat
  name : String
  description : Option String
  icon : Option String
  deriving Repr, DecidableEq

structure InsertBedType where
  name : String
  description : Option String := none
  icon : Option String := none
  deriving Repr, DecidableEq

structure Bed where
  id : Nat
  hospitalId : Nat
  bedTypeId : Nat
  totalBeds : Int
  availableBeds : Int
  pricePerNight : Option Int
  deriving Repr, DecidableEq

structure InsertBed where
  hospitalId : Nat
  bedTypeId : Nat
  totalBeds : Int
  availableBeds : Int
  pricePerNight : Option Int := none
  deriving Repr, DecidableEq

/-- `Partial<InsertBed>` as used by `MemStorage.updateBed`. -/
structure BedPatch where
  hospitalId : Option Nat := none
  bedTypeId : Option Nat := none
  totalBeds : Option Int := none
  availableBeds : Option Int := none
  pricePerNight : Option (Option Int) := none
  deriving Repr, DecidableEq

/-- JS object spread `{...bed, ...bedData}`. -/
def Bed.applyPatch (b : Bed) (p : BedPatch) : Bed :=
  { id := b.id
    hospitalId := p.hospitalId.getD b.hospitalId
    bedTypeId := p.bedTypeId.getD b.bedTypeId
    totalBeds := p.totalBeds.getD b.totalBeds
    availableBeds := p.availableBeds.getD b.availableBeds
    pricePerNight := p.pricePerNight.getD b.pricePerNight }

structure Booking where
  id : Nat
  userId : Nat
  hospitalId : Nat
  bedTypeId : Nat
  patientName : String
  patientPhone : Option String
  notes : Option String
  status : String
  createdAt : Nat
  deriving Repr, DecidableEq

structure InsertBooking where
  userId : Nat
  hospitalId : Nat
  bedTypeId : Nat
  patientName : String
  patientPhone : Option String := none
  notes : Option String := none
  status : Option String := none
  deriving Repr, DecidableEq

/-! ## MemStorage (src/server/storage.ts) -/

/-- The booking object literal built by `createBooking`. -/
def mkBooking (id : Nat) (ins : InsertBooking) (now : Nat) : Booking :=
  { id
    userId := ins.userId
    hospitalId := ins.hospitalId
    bedTypeId := ins.bedTypeId
    patientName := ins.patientName
    patientPhone := jsOrNull ins.patientPhone
    notes := jsOrNull ins.notes
    status := jsOrDefault ins.status "pending"
    createdAt := now }

structure MemStorage where
  users : List (Nat × User)
  hospitals : List (Nat × Hospital)
  bedTypes : List (Nat × BedType)
  beds : List (Nat × Bed)
  bookings : List (Nat × Booking)
  userCurrentId : Nat
  hospitalCurrentId : Nat
  bedTypeCurrentId : Nat
  bedCurrentId : Nat
  bookingCurrentId : Nat
  deriving Repr, DecidableEq

namespace MemStorage

/-- `getUser` -/
def getUser (s : MemStorage) (id : Nat) : Option User :=
  getEntry s.users id

/-- `createUser` -/
def createUser (s : MemStorage) (ins : InsertUser) : User × MemStorage :=
  let id := s.userCurrentId
  let user : User :=
    { id
      username := ins.username
      password := ins.password
      email := ins.email
      name := ins.name
      role := jsOrDefault ins.role "user"
      phone := jsOrNull ins.phone }
  (user, { s with users := setEntry s.users id user, userCurrentId := id + 1 })

/-- `getHospital` -/
def getHospital (s : MemStorage) (id : Nat) : Option Hospital :=
  getEntry s.hospitals id

/-- `getHospitalByUsername`: first hospital whose username matches
case-insensitively. -/
def getHospitalByUsername (s : MemStorage) (username : String) : Option Hospital :=
  (vals s.hospitals).find? (fun h => h.username.toLower == username.toLower)

/-- `createHospital`: new record, `approved := false`; `??` keeps `""`. -/
def createHospital (s : MemStorage) (ins : InsertHospital) : Hospital × MemStorage :=
  let id := s.hospitalCurrentId
  let hospital : Hospital :=
    { id
      username := ins.username
      password := ins.password
      name := ins.name
      email := ins.email
      address := ins.address
      city := ins.city
      state := ins.state
      zipCode := ins.zipCode
      phone := ins.phone
      website := ins.website
      latitude := ins.latitude
      longitude := ins.longitude
      approved := false }
  (hospital,
    { s with hospitals := setEntry s.hospitals id hospital, hospitalCurrentId := id + 1 })

/-- `updateHospitalApproval` -/
def updateHospitalApproval (s : MemStorage) (id : Nat) (approved : Bool) :
    Option Hospital × MemStorage :=
  match s.getHospital id with
  | none => (none, s)
  | some hospital =>
      let updated := { hospital with approved := approved }
      (some updated, { s with hospitals := setEntry s.hospitals id updated })

/-- `getAllHospitals` -/
def getAllHospitals (s : MemStorage) : List Hospital :=
  vals s.hospitals

/-- `getApprovedHospitals` -/
def getApprovedHospitals (s : MemStorage) : List Hospital :=
  (vals s.hospitals).filter (fun h => h.approved)

/-- `getPendingHospitals` -/
def getPendingHospitals (s : MemStorage) : List Hospital :=
  (vals s.hospitals).filter (fun h => !h.approved)

/-- `getBedType` -/
def getBedType (s : MemStorage) (id : Nat) : Option BedType :=
  getEntry s.bedTypes id

/-- `getBedTypeByName`: first bed type whose name matches
case-insensitively. -/
def getBedTypeByName (s : MemStorage) (name : String) : Option BedType :=
  (vals s.bedTypes).find? (fun bt => bt.name.toLower == name.toLower)

/-- `createBedType` -/
def createBedType (s : MemStorage) (ins : InsertBedType) : BedType × MemStorage :=
  let id := s.bedTypeCurrentId
  let bedType : BedType :=
    { id
      name := ins.name
      description := ins.description
      icon := ins.icon }
  (bedType,
    { s with bedTypes := setEntry s.bedTypes id bedType, bedTypeCurrentId := id + 1 })

/-- `getAllBedTypes` -/
def getAllBedTypes (s : MemStorage) : List BedType :=
  vals s.bedTypes

/-- `getBed` -/
def getBed (s : MemStorage) (id : Nat) : Option Bed :=
  getEntry s.beds id

/-- `getBedsByHospital` -/
def getBedsByHospital (s : MemStorage) (hospitalId : Nat) : List Bed :=
  (vals s.beds).filter (fun b => b.hospitalId == hospitalId)

/-- `createBed`: unconditionally creates a record with a fresh id (no
duplicate-pair check is performed here). -/
def createBed (s : MemStorage) (ins : InsertBed) : Bed × MemStorage :=
  let id := s.bedCurrentId
  let bed : Bed :=
    { id
      hospitalId := ins.hospitalId
      bedTypeId := ins.bedTypeId
      totalBeds := ins.totalBeds
      availableBeds := ins.availableBeds
      pricePerNight := ins.pricePerNight }
  (bed, { s with beds := setEntry s.beds id bed, bedCurrentId := id + 1 })

/-- `updateBed`: merge the patch into the existing record (JS spread). -/
def updateBed (s : MemStorage) (id : Nat) (patch : BedPatch) : Option Bed × MemStorage :=
  match s.getBed id with
  | none => (none, s)
  | some bed =>
      let updated := bed.applyPatch patch
      (some updated, { s with beds := setEntry s.beds id updated })

/-- `getBedByHospitalAndType`: first bed matching the
(hospitalId, bedTypeId) pair. -/
def getBedByHospitalAndType (s : MemStorage) (hospitalId bedTypeId : Nat) : Option Bed :=
  (vals s.beds).find? (fun b => b.hospitalId == hospitalId && b.bedTypeId == bedTypeId)

/-- `getBooking` -/
def getBooking (s : MemStorage) (id : Nat) : Option Booking :=
  getEntry s.bookings id

/-- `createBooking`: store the booking, then decrement `availableBeds` of
the matching bed when one exists with `availableBeds > 0`.  `now` stands
for `new Date()`. -/
def createBooking (s : MemStorage) (ins : InsertBooking) (now : Nat) : Booking × MemStorage :=
  let id := s.bookingCurrentId
  let booking : Booking := mkBooking id ins now
  let s1 : MemStorage :=
    { s with bookings := setEntry s.bookings id booking, bookingCurrentId := id + 1 }
  let s2 : MemStorage :=
    match s1.getBedByHospitalAndType booking.hospitalId booking.bedTypeId with
    | some bed =>
        if bed.availableBeds > 0 then
          (s1.updateBed bed.id { availableBeds := some (bed.availableBeds - 1) }).2
        else s1
    | none => s1
  (booking, s2)

/-- `updateBookingStatus`: when canceling a pending booking, restore the
matching bed's availability first, then overwrite the status. -/
def updateBookingStatus (s : MemStorage) (id : Nat) (status : String) :
    Option Booking × MemStorage :=
  match s.getBooking id with
  | none => (none, s)
  | some booking =>
      let s1 : MemStorage :=
        if booking.status = "pending" ∧ status = "canceled" then
          match s.getBedByHospitalAndType booking.hospitalId booking.bedTypeId with
          | some bed =>
              (s.updateBed bed.id { availableBeds := some (bed.availableBeds + 1) }).2
          | none => s
        else s
      let updated := { booking with status := status }
      (some updated, { s1 with bookings := setEntry s1.bookings id updated })

/-- `getBookingsByHospital` -/
def getBookingsByHospital (s : MemStorage) (hospitalId : Nat) : List Booking :=
  (vals s.bookings).filter (fun b => b.hospitalId == hospitalId)

/-- `getBookingsByUser` -/
def getBookingsByUser (s : MemStorage) (userId : Nat) : List Booking :=
  (vals s.bookings).filter (fun b => b.userId == userId)

/-- `getAllBookings` -/
def getAllBookings (s : MemStorage) : List Booking :=
  vals s.bookings

end MemStorage

/-- The empty store before the constructor body runs. -/
def emptyStorage : MemStorage :=
  { users := [], hospitals := [], bedTypes := [], beds := [], bookings := []
    userCurrentId := 1, hospitalCurrentId := 1, bedTypeCurrentId := 1
    bedCurrentId := 1, bookingCurrentId := 1 }

/-- The `MemStorage` constructor: default bed types then the admin user. -/
def initialStorage : MemStorage :=
  let s := ["ICU", "General", "Emergency", "Pediatric", "Maternity"].foldl
    (fun s name => (s.createBedType { name }).2) emptyStorage
  (s.createUser
    { username := "admin", password := "admin123", email := "admin@medbeds.com"
      name := "System Administrator", role := some "admin" }).2

/-! ## Route handlers (src/server/routes.ts)

Each handler is modelled after authentication/parsing succeeded; the
authenticated principal's id is passed explicitly.  Error responses are
`Except.error` with the handler's message; the second component is the
storage state after the request. -/

/-- `POST /api/bookings`: verify the hospital exists and is approved,
verify the bed exists with availability, then create the booking. -/
def postBookingsHandler (s : MemStorage) (data : InsertBooking) (now : Nat) :
    Except String Booking × MemStorage :=
  match s.getHospital data.hospitalId with
  | none => (Except.error "Hospital not found", s)
  | some hospital =>
      if !hospital.approved then (Except.error "Hospital not found", s)
      else
        match s.getBedByHospitalAndType data.hospitalId data.bedTypeId with
        | none => (Except.error "Bed type not available at this hospital", s)
        | some bed =>
            if bed.availableBeds ≤ 0 then
              (Except.error "No beds available of this type", s)
            else
              let (booking, s1) := s.createBooking data now
              (Except.ok booking, s1)

/-- `PATCH /api/user/bookings/:id/cancel`: only the owner may cancel, and
only a pending booking. -/
def cancelUserBookingHandler (s : MemStorage) (userId bookingId : Nat) :
    Except String Booking × MemStorage :=
  match s.getBooking bookingId with
  | none => (Except.error "Booking not found", s)
  | some booking =>
      if booking.userId ≠ userId then (Except.error "Forbidden", s)
      else if booking.status ≠ "pending" then
        (Except.error "Can only cancel pending bookings", s)
      else
        match s.updateBookingStatus bookingId "canceled" with
        | (some updated, s1) => (Except.ok updated, s1)
        | (none, s1) => (Except.error "Booking not found", s1)

/-- `PATCH /api/hospital/bookings/:id`: hospital-side status update,
restricted to approved/rejected/canceled and to the hospital's own
bookings. -/
def patchHospitalBookingHandler (s : MemStorage) (hospitalId bookingId : Nat)
    (status : String) : Except String Booking × MemStorage :=
  if !(["approved", "rejected", "canceled"].contains status) then
    (Except.error "Invalid status", s)
  else
    match s.getBooking bookingId with
    | none => (Except.error "Booking not found", s)
    | some booking =>
        if booking.hospitalId ≠ hospitalId then (Except.error "Forbidden", s)
        else
          match s.updateBookingStatus bookingId status with
          | (some updated, s1) => (Except.ok updated, s1)
          | (none, s1) => (Except.error "Booking not found", s1)

/-- `POST /api/hospital/beds`: update the existing bed for the pair when
one exists, otherwise create a new one.  `data.hospitalId` is forced to
the authenticated hospital by the route. -/
def postHospitalBedsHandler (s : MemStorage) (data : InsertBed) :
    Except String Bed × MemStorage :=
  match s.getBedByHospitalAndType data.hospitalId data.bedTypeId with
  | some existingBed =>
      match s.updateBed existingBed.id
        { hospitalId := some data.hospitalId
          bedTypeId := some data.bedTypeId
          totalBeds := some data.totalBeds
          availableBeds := some data.availableBeds
          pricePerNight := data.pricePerNight.map some } with
      | (some updated, s1) => (Except.ok updated, s1)
      | (none, s1) => (Except.error "Bed not found", s1)
  | none =>
      let (newBed, s1) := s.createBed data
      (Except.ok newBed, s1)

/-- `POST /api/hospitals/register`: reject duplicate usernames, then
create the (unapproved) hospital. -/
def registerHospitalHandler (s : MemStorage) (data : InsertHospital) :
    Except String Hospital × MemStorage :=
  match s.getHospitalByUsername data.username with
  | some _ => (Except.error "Username already exists", s)
  | none =>
      let (newHospital, s1) := s.createHospital data
      (Except.ok newHospital, s1)

/-- `PATCH /api/admin/hospitals/:id/approve` -/
def approveHospitalHandler (s : MemStorage) (hospitalId : Nat) :
    Except String Hospital × MemStorage :=
  match s.getHospital hospitalId with
  | none => (Except.error "Hospital not found", s)
  | some _ =>
      match s.updateHospitalApproval hospitalId true with
      | (some updated, s1) => (Except.ok updated, s1)
      | (none, s1) => (Except.error "Hospital not found", s1)

/-! ## Hospital API service (src/server/services/hospitalApi.ts) -/

structure ApiConfig where
  apiKey : String
  apiUrl : String
  deriving Repr, DecidableEq

/-- Outcome of the axios `/health` probe: a response with a status code,
or a thrown error (axios throws on non-2xx as well as on network
failure; both land in the `catch`). -/
inductive ProbeResult
  | ok (status : Nat)
  | err
  deriving Repr, DecidableEq

structure ApiAddress where
  street : String
  city : String
  state : String
  zipCode : String
  deriving Repr, DecidableEq

structure ApiBedEntry where
  type : String
  total : Int
  available : Int
  deriving Repr, DecidableEq

structure ApiLocation where
  lat : Int
  lng : Int
  deriving Repr, DecidableEq

structure ApiHospital where
  id : String
  name : String
  address : ApiAddress
  phone : String
  email : String
  website : String
  beds : List ApiBedEntry
  location : ApiLocation
  deriving Repr, DecidableEq

/-- Outcome of the `/hospitals` fetch. -/
inductive FetchResult
  | ok (data : List ApiHospital)
  | err
  deriving Repr, DecidableEq

/-- The external world seen by one service call: the probe outcome and
the fetch response as a function of the `location` query parameter. -/
structure RemoteEnv where
  probe : ProbeResult
  fetch : Option String → FetchResult

/-- `transformHospitalData` -/
def transformHospitalData (h : ApiHospital) : InsertHospital :=
  { username := "hospital_" ++ h.id
    password := "temporary_password"
    name := h.name
    address := h.address.street
    city := h.address.city
    state := h.address.state
    zipCode := h.address.zipCode
    phone := h.phone
    email := h.email
    website := some h.website
    latitude := some (toString h.location.lat)
    longitude := some (toString h.location.lng) }

/-- `HospitalApiService.isApiAvailable`: false when no key is configured
(empty string is falsy); otherwise the probe must return status 200, and
any thrown error yields false. -/
def isApiAvailable (cfg : ApiConfig) (probe : ProbeResult) : Bool :=
  if cfg.apiKey = "" then false
  else
    match probe with
    | ProbeResult.ok status => status == 200
    | ProbeResult.err => false

/-- One iteration of the loop in `processHospitalBeds`: resolve the bed
type through the lowercased-name map (`if (!bedTypeId)` treats the JS
`undefined` — and the never-generated id 0 — as absent), lazily creating
it, then update the existing bed for the pair or create a new one. -/
def processApiBed (s : MemStorage) (mp : List (String × Nat)) (hospitalId : Nat)
    (b : ApiBedEntry) : MemStorage × List (String × Nat) :=
  let bedTypeId0 := (lookupAssoc mp b.type.toLower).getD 0
  let resolved : Nat × MemStorage × List (String × Nat) :=
    if bedTypeId0 = 0 then
      let (newBedType, s1) := s.createBedType { name := b.type }
      (newBedType.id, s1, setAssoc mp b.type.toLower newBedType.id)
    else (bedTypeId0, s, mp)
  let bedTypeId := resolved.1
  let s1 := resolved.2.1
  let mp1 := resolved.2.2
  match s1.getBedByHospitalAndType hospitalId bedTypeId with
  | some existingBed =>
      ((s1.updateBed existingBed.id
          { totalBeds := some b.total, availableBeds := some b.available }).2, mp1)
  | none =>
      ((s1.createBed
          { hospitalId := hospitalId, bedTypeId := bedTypeId
            totalBeds := b.total, availableBeds := b.available }).2, mp1)

/-- `HospitalApiService.processHospitalBeds`: build the lowercased
name-to-id map from all bed types, then process each remote entry. -/
def processHospitalBeds (s : MemStorage) (hospitalId : Nat)
    (apiBeds : List ApiBedEntry) : MemStorage :=
  let mp := s.getAllBedTypes.foldl (fun mp bt => setAssoc mp bt.name.toLower bt.id) []
  (apiBeds.foldl
    (fun acc b => processApiBed acc.1 acc.2 hospitalId b) (s, mp)).1

/-- One iteration of the hospital loop in `getHospitalsByLocation`:
an already-known remote hospital (matched by the derived username,
case-insensitively) is returned as-is; a new one is created, auto-
approved and its beds ingested. -/
def syncApiHospital (acc : List Hospital × MemStorage) (apiHospital : ApiHospital) :
    List Hospital × MemStorage :=
  let (hs, st) := acc
  match st.getHospitalByUsername ("hospital_" ++ apiHospital.id) with
  | some hospital => (hs ++ [hospital], st)
  | none =>
      let (created, st1) := st.createHospital (transformHospitalData apiHospital)
      let (approvedH, st2) := st1.updateHospitalApproval created.id true
      let hospital := approvedH.getD created
      let st3 := processHospitalBeds st2 hospital.id apiHospital.beds
      (hs ++ [hospital], st3)

/-- `HospitalApiService.getHospitalsByLocation`: local fallback when the
API is unavailable or the fetch throws; otherwise ingest each remote
hospital. -/
def getHospitalsByLocation (cfg : ApiConfig) (env : RemoteEnv) (s : MemStorage)
    (location : Option String) : List Hospital × MemStorage :=
  if !(isApiAvailable cfg env.probe) then (s.getApprovedHospitals, s)
  else
    match env.fetch location with
    | FetchResult.err => (s.getApprovedHospitals, s)
    | FetchResult.ok data => data.foldl syncApiHospital ([], s)

/-! ## Association-list lemmas -/

theorem find?_eq_some_decomp {α : Type} {p : α → Bool} {l : List α} {x : α}
    (h : l.find? p = some x) :
    ∃ l1 l2, l = l1 ++ x :: l2 ∧ p x = true ∧ ∀ y ∈ l1, p y = false := by
  induction l with
  | nil => simp [List.find?] at h
  | cons a l ih =>
    by_cases hpa : p a
    · rw [List.find?_cons_of_pos _ hpa] at h
      obtain rfl : a = x := by injection h
      exact ⟨[], l, rfl, hpa, by simp⟩
    · rw [List.find?_cons_of_neg _ (by simpa using hpa)] at h
      obtain ⟨l1, l2, rfl, hx, hl1⟩ := ih h
      refine ⟨a :: l1, l2, rfl, hx, ?_⟩
      intro y hy
      rcases List.mem_cons.mp hy with rfl | hy
      · simpa using hpa
      · exact hl1 y hy

theorem find?_map_eq {α β : Type} (f : α → β) (l : List α) (p : β → Bool) :
    (l.map f).find? p = (l.find? (fun a => p (f a))).map f := by
  induction l with
  | nil => rfl
  | cons a l ih =>
    by_cases h : p (f a)
    · rw [List.map_cons, List.find?_cons_of_pos _ h,
        List.find?_cons_of_pos (p := fun a => p (f a)) _ h, Option.map_some']
    · rw [List.map_cons, List.find?_cons_of_neg _ (by simpa using h),
        List.find?_cons_of_neg (p := fun a => p (f a)) _ (by simpa using h), ih]

theorem vals_append {α : Type} (m1 m2 : List (Nat × α)) :
    vals (m1 ++ m2) = vals m1 ++ vals m2 := by
  simp [vals]

theorem vals_cons {α : Type} (p : Nat × α) (m : List (Nat × α)) :
    vals (p :: m) = p.2 :: vals m := by
  simp [vals]

theorem keys_append {α : Type} (m1 m2 : List (Nat × α)) :
    keys (m1 ++ m2) = keys m1 ++ keys m2 := by
  simp [keys]

theorem keys_cons {α : Type} (p : Nat × α) (m : List (Nat × α)) :
    keys (p :: m) = p.1 :: keys m := by
  simp [keys]

theorem setEntry_of_fresh {α : Type} {m : List (Nat × α)} {k : Nat} {v : α}
    (h : ∀ p ∈ m, p.1 ≠ k) :
    setEntry m k v = m ++ [(k, v)] := by
  unfold setEntry
  rw [if_neg]
  intro hc
  rw [List.any_eq_true] at hc
  obtain ⟨p, hp, hpk⟩ := hc
  exact h p hp (by simpa using hpk)

theorem setEntry_replace {α : Type} {m1 m2 : List (Nat × α)} {k : Nat} {x : α} (v : α)
    (h1 : ∀ p ∈ m1, p.1 ≠ k) (h2 : ∀ p ∈ m2, p.1 ≠ k) :
    setEntry (m1 ++ (k, x) :: m2) k v = m1 ++ (k, v) :: m2 := by
  unfold setEntry
  rw [if_pos]
  · rw [List.map_append, List.map_cons]
    congr 1
    · apply List.map_congr_left ?_ |>.trans (List.map_id m1)
      intro p hp
      rw [if_neg (by simpa using h1 p hp)]
      rfl
    · congr 1
      · rw [if_pos (by simp)]
      · apply List.map_congr_left ?_ |>.trans (List.map_id m2)
        intro p hp
        rw [if_neg (by simpa using h2 p hp)]
        rfl
  · rw [List.any_eq_true]
    exact ⟨(k, x), by simp, by simp⟩

theorem getEntry_decomp {α : Type} {m1 m2 : List (Nat × α)} {k : Nat} {x : α}
    (h1 : ∀ p ∈ m1, p.1 ≠ k) :
    getEntry (m1 ++ (k, x) :: m2) k = some x := by
  unfold getEntry
  induction m1 with
  | nil =>
    rw [List.nil_append, List.find?_cons_of_pos _ (by simp)]
    rfl
  | cons a m1 ih =>
    rw [List.cons_append, List.find?_cons_of_neg _ (by simpa using h1 a (by simp))]
    exact ih (fun p hp => h1 p (List.mem_cons_of_mem a hp))

theorem getEntry_eq_none_iff {α : Type} {m : List (Nat × α)} {k : Nat} :
    getEntry m k = none ↔ ∀ p ∈ m, p.1 ≠ k := by
  unfold getEntry
  rw [Option.map_eq_none', List.find?_eq_none]
  constructor
  · intro h p hp
    simpa using h p hp
  · intro h p hp
    simpa using h p hp

theorem getEntry_append_fresh {α : Type} {m : List (Nat × α)} {k : Nat} {v : α}
    (h : ∀ p ∈ m, p.1 ≠ k) :
    getEntry (m ++ [(k, v)]) k = some v := by
  have h2 := @getEntry_decomp α m ([] : List (Nat × α)) k v h
  simpa using h2

/-- Split a nodup-keys map at an entry with key `k`. -/
theorem keys_nodup_split {α : Type} {m1 m2 : List (Nat × α)} {k : Nat} {x : α}
    (h : (keys (m1 ++ (k, x) :: m2)).Nodup) :
    (∀ p ∈ m1, p.1 ≠ k) ∧ (∀ p ∈ m2, p.1 ≠ k) := by
  rw [keys_append, keys_cons] at h
  have h' := List.nodup_middle.mp h
  rw [List.nodup_cons] at h'
  constructor
  · intro p hp hpk
    have hm : p.1 ∈ keys m1 := List.mem_map_of_mem _ hp
    rw [hpk] at hm
    exact h'.1 (List.mem_append.mpr (Or.inl hm))
  · intro p hp hpk
    have hm : p.1 ∈ keys m2 := List.mem_map_of_mem _ hp
    rw [hpk] at hm
    exact h'.1 (List.mem_append.mpr (Or.inr hm))

/-! ## Inventory invariant -/

/-- Bookings that hold a decremented bed: pending, for the given pair. -/
def bkMatch (h t : Nat) (bk : Booking) : Bool :=
  bk.status == "pending" && bk.hospitalId == h && bk.bedTypeId == t

/-- Number of pending bookings for a (hospital, bed type) pair. -/
def pendingCount (m : List (Nat × Booking)) (h t : Nat) : Nat :=
  (vals m).countP (bkMatch h t)

theorem pendingCount_append (m1 m2 : List (Nat × Booking)) (h t : Nat) :
    pendingCount (m1 ++ m2) h t = pendingCount m1 h t + pendingCount m2 h t := by
  unfold pendingCount
  rw [vals_append, List.countP_append]

theorem pendingCount_cons (k : Nat) (bk : Booking) (m : List (Nat × Booking)) (h t : Nat) :
    pendingCount ((k, bk) :: m) h t =
      pendingCount m h t + (if bkMatch h t bk then 1 else 0) := by
  unfold pendingCount
  rw [vals_cons, List.countP_cons]

/-- Two beds do not collide on the (hospital, bed type) pair. -/
def distinctPair (b1 b2 : Bed) : Prop :=
  ¬(b1.hospitalId = b2.hospitalId ∧ b1.bedTypeId = b2.bedTypeId)

/-- State invariant maintained by the creation/booking/cancellation
operations: map keys are well formed, every (hospital, bed type) pair
has at most one bed record, every pending booking points at an existing
bed, and each bed's availability plus its outstanding pending bookings
stays within `totalBeds` while remaining nonnegative. -/
structure Inv (s : MemStorage) : Prop where
  bedKeysNodup : (keys s.beds).Nodup
  bedIdAligned : ∀ p ∈ s.beds, p.2.id = p.1
  bedKeysLt : ∀ p ∈ s.beds, p.1 < s.bedCurrentId
  bookingKeysNodup : (keys s.bookings).Nodup
  bookingKeysLt : ∀ p ∈ s.bookings, p.1 < s.bookingCurrentId
  pairsDistinct : (vals s.beds).Pairwise distinctPair
  pendingHasBed : ∀ p ∈ s.bookings, p.2.status = "pending" →
      ∃ b ∈ vals s.beds, b.hospitalId = p.2.hospitalId ∧ b.bedTypeId = p.2.bedTypeId
  bedBounds : ∀ b ∈ vals s.beds, 0 ≤ b.availableBeds ∧
      b.availableBeds + (pendingCount s.bookings b.hospitalId b.bedTypeId : Int) ≤ b.totalBeds

/-- The top-level claim `0 ≤ availableBeds ≤ totalBeds` follows from the
invariant. -/
theorem Inv.bounds {s : MemStorage} (hs : Inv s) :
    ∀ b ∈ vals s.beds, 0 ≤ b.availableBeds ∧ b.availableBeds ≤ b.totalBeds := by
  intro b hb
  obtain ⟨h0, h1⟩ := hs.bedBounds b hb
  refine ⟨h0, le_trans ?_ h1⟩
  have : (0 : Int) ≤ (pendingCount s.bookings b.hospitalId b.bedTypeId : Int) := by
    exact_mod_cast Nat.zero_le _
  omega

/-- Transfer the invariant along a state that agrees on the relevant
fields. -/
theorem Inv.of_eq {s s' : MemStorage} (hs : Inv s)
    (hbeds : s'.beds = s.beds) (hbookings : s'.bookings = s.bookings)
    (hbedId : s'.bedCurrentId = s.bedCurrentId)
    (hbookingId : s'.bookingCurrentId = s.bookingCurrentId) : Inv s' := by
  refine ⟨?_, ?_, ?_, ?_, ?_, ?_, ?_, ?_⟩
  · rw [hbeds]; exact hs.bedKeysNodup
  · rw [hbeds]; exact hs.bedIdAligned
  · rw [hbeds, hbedId]; exact hs.bedKeysLt
  · rw [hbookings]; exact hs.bookingKeysNodup
  · rw [hbookings, hbookingId]; exact hs.bookingKeysLt
  · rw [hbeds]; exact hs.pairsDistinct
  · rw [hbeds, hbookings]; exact hs.pendingHasBed
  · rw [hbeds, hbookings]; exact hs.bedBounds

/-! ## Decomposition of the first-match bed lookup -/

theorem getBedByHospitalAndType_some_decomp {s : MemStorage} {h t : Nat} {bed : Bed}
    (hfind : s.getBedByHospitalAndType h t = some bed) :
    ∃ (k : Nat) (L1 L2 : List (Nat × Bed)),
      s.beds = L1 ++ (k, bed) :: L2 ∧
      bed.hospitalId = h ∧ bed.bedTypeId = t ∧
      ∀ q ∈ L1, ¬(q.2.hospitalId = h ∧ q.2.bedTypeId = t) := by
  unfold MemStorage.getBedByHospitalAndType at hfind
  rw [show vals s.beds = s.beds.map (·.2) from rfl, find?_map_eq,
    Option.map_eq_some'] at hfind
  obtain ⟨pr, hpr, hpr2⟩ := hfind
  obtain ⟨L1, L2, heq, hpx, hL1⟩ := find?_eq_some_decomp hpr
  subst hpr2
  simp only [Bool.and_eq_true, beq_iff_eq] at hpx
  refine ⟨pr.1, L1, L2, by simpa using heq, hpx.1, hpx.2, ?_⟩
  intro q hq hC
  have := hL1 q hq
  simp [hC.1, hC.2] at this

theorem getBedByHospitalAndType_eq_none_iff {s : MemStorage} {h t : Nat} :
    s.getBedByHospitalAndType h t = none ↔
      ∀ b ∈ vals s.beds, ¬(b.hospitalId = h ∧ b.bedTypeId = t) := by
  unfold MemStorage.getBedByHospitalAndType
  rw [List.find?_eq_none]
  constructor
  · intro H b hb hC
    have := H b hb
    simp [hC.1, hC.2] at this
  · intro H b hb
    have := H b hb
    simp only [Bool.and_eq_true, beq_iff_eq]
    intro hC
    exact this ⟨hC.1, hC.2⟩

/-- The lookup only depends on the `beds` field. -/
theorem getBedByHospitalAndType_congr {s s' : MemStorage} (h t : Nat)
    (hbeds : s'.beds = s.beds) :
    s'.getBedByHospitalAndType h t = s.getBedByHospitalAndType h t := by
  unfold MemStorage.getBedByHospitalAndType
  rw [show vals s'.beds = vals s.beds from by rw [hbeds]]

/-- `Bed.applyPatch` with only `availableBeds` set. -/
theorem applyPatch_availableBeds (b : Bed) (v : Int) :
    b.applyPatch { availableBeds := some v } = { b with availableBeds := v } := rfl

/-- `updateBed` on a nodup-keys store rewrites the unique entry in
place. -/
theorem updateBed_decomp {s : MemStorage} {L1 L2 : List (Nat × Bed)} {bed : Bed}
    (patch : BedPatch) (hbeds : s.beds = L1 ++ (bed.id, bed) :: L2)
    (hnodup : (keys s.beds).Nodup) :
    (s.updateBed bed.id patch).2 =
      { s with beds := L1 ++ (bed.id, bed.applyPatch patch) :: L2 } := by
  have hnd : (keys (L1 ++ (bed.id, bed) :: L2)).Nodup := hbeds ▸ hnodup
  have hsplit := keys_nodup_split hnd
  simp only [MemStorage.updateBed, MemStorage.getBed, hbeds,
    getEntry_decomp hsplit.1, setEntry_replace (bed.applyPatch patch) hsplit.1 hsplit.2]

/-- Replacing the middle element by one related in the same way
preserves pairwise-ness. -/
theorem pairwise_replace_middle {α : Type} {R : α → α → Prop} {L1 L2 : List α} {b b' : α}
    (h1 : ∀ x, R b x → R b' x) (h2 : ∀ x, R x b → R x b')
    (h : (L1 ++ b :: L2).Pairwise R) : (L1 ++ b' :: L2).Pairwise R := by
  rw [List.pairwise_append] at h
  obtain ⟨hA, hBC, hAB⟩ := h
  rw [List.pairwise_cons] at hBC
  rw [List.pairwise_append, List.pairwise_cons]
  refine ⟨hA, ⟨fun x hx => h1 x (hBC.1 x hx), hBC.2⟩, ?_⟩
  intro a ha c hc
  rcases List.mem_cons.mp hc with rfl | hc
  · exact h2 a (hAB a ha b (List.mem_cons_self _ _))
  · exact hAB a ha c (List.mem_cons_of_mem _ hc)

/-- A pair-preserving replacement keeps the witnesses of
`pendingHasBed`. -/
theorem mem_vals_replace {L1 L2 : List (Nat × Bed)} {k : Nat} (bed bed' : Bed) {b : Bed}
    (hpair : bed'.hospitalId = bed.hospitalId ∧ bed'.bedTypeId = bed.bedTypeId)
    (hb : b ∈ vals (L1 ++ (k, bed) :: L2)) :
    ∃ c ∈ vals (L1 ++ (k, bed') :: L2),
      c.hospitalId = b.hospitalId ∧ c.bedTypeId = b.bedTypeId := by
  rw [vals_append, vals_cons] at hb
  rcases List.mem_append.mp hb with hb1 | hb2
  · exact ⟨b, by rw [vals_append, vals_cons]; exact List.mem_append.mpr (Or.inl hb1),
      rfl, rfl⟩
  · rcases List.mem_cons.mp hb2 with rfl | hb3
    · refine ⟨bed', ?_, hpair.1, hpair.2⟩
      rw [vals_append, vals_cons]
      exact List.mem_append.mpr (Or.inr (List.mem_cons_self _ _))
    · refine ⟨b, ?_, rfl, rfl⟩
      rw [vals_append, vals_cons]
      exact List.mem_append.mpr (Or.inr (List.mem_cons_of_mem _ hb3))

/-- `Bed.applyPatch` with `totalBeds` and `availableBeds` set. -/
theorem applyPatch_total_available (b : Bed) (t v : Int) :
    b.applyPatch { totalBeds := some t, availableBeds := some v } =
      { b with totalBeds := t, availableBeds := v } := rfl

theorem getBooking_some_decomp {s : MemStorage} {id : Nat} {bk : Booking}
    (hbk : s.getBooking id = some bk) (hnodup : (keys s.bookings).Nodup) :
    ∃ B1 B2, s.bookings = B1 ++ (id, bk) :: B2 ∧
      (∀ q ∈ B1, q.1 ≠ id) ∧ (∀ q ∈ B2, q.1 ≠ id) := by
  unfold MemStorage.getBooking getEntry at hbk
  rw [Option.map_eq_some'] at hbk
  obtain ⟨pr, hpr, hpr2⟩ := hbk
  obtain ⟨B1, B2, heq, hpx, _⟩ := find?_eq_some_decomp hpr
  have hk : pr.1 = id := by simpa using hpx
  have hpreq : pr = (id, bk) := by rw [← hk, ← hpr2]
  rw [hpreq] at heq
  have hnd : (keys (B1 ++ (id, bk) :: B2)).Nodup := heq ▸ hnodup
  exact ⟨B1, B2, heq, (keys_nodup_split hnd).1, (keys_nodup_split hnd).2⟩

theorem bkMatch_false_of_status {bk : Booking} (h t : Nat) (hst : bk.status ≠ "pending") :
    bkMatch h t bk = false := by
  unfold bkMatch
  simp [hst]

theorem bkMatch_true_iff {bk : Booking} {h t : Nat} :
    bkMatch h t bk = true ↔ bk.status = "pending" ∧ bk.hospitalId = h ∧ bk.bedTypeId = t := by
  unfold bkMatch
  simp [and_assoc]

/-- Core preservation: any status update through a non-`"pending"` target
status keeps the inventory invariant.  (The store itself would accept a
transition back to `"pending"`, which can break the invariant; no route
requests one.) -/
theorem inv_updateBookingStatus (s : MemStorage) (id : Nat) (status : String)
    (hs : Inv s) (hst : status ≠ "pending") :
    Inv (s.updateBookingStatus id status).2 := by
  cases hbk : s.getBooking id with
  | none =>
    have hchar : (s.updateBookingStatus id status).2 = s := by
      unfold MemStorage.updateBookingStatus
      rw [hbk]
    rw [hchar]
    exact hs
  | some bk =>
    obtain ⟨B1, B2, hBeq, hB1, hB2⟩ := getBooking_some_decomp hbk hs.bookingKeysNodup
    have hbkmem : (id, bk) ∈ s.bookings := by
      rw [hBeq]
      exact List.mem_append.mpr (Or.inr (List.mem_cons_self _ _))
    have hsetB : setEntry s.bookings id { bk with status := status } =
        B1 ++ (id, { bk with status := status }) :: B2 := by
      rw [hBeq]
      exact setEntry_replace _ hB1 hB2
    by_cases hcond : bk.status = "pending" ∧ status = "canceled"
    · cases hbed : s.getBedByHospitalAndType bk.hospitalId bk.bedTypeId with
      | none =>
        exfalso
        obtain ⟨b, hbmem, hbh, hbt⟩ := hs.pendingHasBed (id, bk) hbkmem hcond.1
        exact (getBedByHospitalAndType_eq_none_iff.mp hbed) b hbmem ⟨hbh, hbt⟩
      | some bed =>
        obtain ⟨k, L1, L2, hLeq, hbh, hbt, hL1pair⟩ := getBedByHospitalAndType_some_decomp hbed
        have hbedmem : (k, bed) ∈ s.beds := by
          rw [hLeq]
          exact List.mem_append.mpr (Or.inr (List.mem_cons_self _ _))
        have hkid : bed.id = k := hs.bedIdAligned (k, bed) hbedmem
        rw [← hkid] at hLeq hbedmem
        have hupd := updateBed_decomp
          { availableBeds := some (bed.availableBeds + 1) } hLeq hs.bedKeysNodup
        rw [applyPatch_availableBeds] at hupd
        have hchar : (s.updateBookingStatus id status).2 =
            { s with
              beds := L1 ++ (bed.id, { bed with availableBeds := bed.availableBeds + 1 }) :: L2,
              bookings := B1 ++ (id, { bk with status := status }) :: B2 } := by
          unfold MemStorage.updateBookingStatus
          rw [hbk]
          simp only [if_pos hcond, hbed, hupd, hsetB]
        rw [hchar]
        set bed1 : Bed := { bed with availableBeds := bed.availableBeds + 1 } with hbed1
        set bk1 : Booking := { bk with status := status } with hbk1
        have hbk1st : bk1.status ≠ "pending" := hst
        have hvalsT : vals (L1 ++ (bed.id, bed1) :: L2) = vals L1 ++ bed1 :: vals L2 := by
          rw [vals_append, vals_cons]
        have hvalsS : vals s.beds = vals L1 ++ bed :: vals L2 := by
          rw [hLeq, vals_append, vals_cons]
        have hpairsS : (vals L1 ++ bed :: vals L2).Pairwise distinctPair := by
          rw [← hvalsS]; exact hs.pairsDistinct
        -- pending counts before and after, for an arbitrary pair
        have hpcS : ∀ h t, pendingCount s.bookings h t =
            pendingCount B1 h t + pendingCount B2 h t +
              (if bkMatch h t bk then 1 else 0) := by
          intro h t
          rw [hBeq, pendingCount_append, pendingCount_cons]
          ring
        have hpcT : ∀ h t, pendingCount (B1 ++ (id, bk1) :: B2) h t =
            pendingCount B1 h t + pendingCount B2 h t := by
          intro h t
          rw [pendingCount_append, pendingCount_cons,
            bkMatch_false_of_status _ _ hbk1st]
          simp
        refine ⟨?_, ?_, ?_, ?_, ?_, ?_, ?_, ?_⟩
        · show (keys (L1 ++ (bed.id, bed1) :: L2)).Nodup
          rw [keys_append, keys_cons]
          have := hs.bedKeysNodup
          rw [hLeq, keys_append, keys_cons] at this
          exact this
        · show ∀ p ∈ L1 ++ (bed.id, bed1) :: L2, p.2.id = p.1
          intro p hp
          rcases List.mem_append.mp hp with hp1 | hp2
          · exact hs.bedIdAligned p (by rw [hLeq]; exact List.mem_append.mpr (Or.inl hp1))
          · rcases List.mem_cons.mp hp2 with rfl | hp3
            · rfl
            · exact hs.bedIdAligned p
                (by rw [hLeq]; exact List.mem_append.mpr (Or.inr (List.mem_cons_of_mem _ hp3)))
        · show ∀ p ∈ L1 ++ (bed.id, bed1) :: L2, p.1 < s.bedCurrentId
          intro p hp
          rcases List.mem_append.mp hp with hp1 | hp2
          · exact hs.bedKeysLt p (by rw [hLeq]; exact List.mem_append.mpr (Or.inl hp1))
          · rcases List.mem_cons.mp hp2 with rfl | hp3
            · exact hs.bedKeysLt (bed.id, bed) hbedmem
            · exact hs.bedKeysLt p
                (by rw [hLeq]; exact List.mem_append.mpr (Or.inr (List.mem_cons_of_mem _ hp3)))
        · show (keys (B1 ++ (id, bk1) :: B2)).Nodup
          rw [keys_append, keys_cons]
          have := hs.bookingKeysNodup
          rw [hBeq, keys_append, keys_cons] at this
          exact this
        · show ∀ p ∈ B1 ++ (id, bk1) :: B2, p.1 < s.bookingCurrentId
          intro p hp
          rcases List.mem_append.mp hp with hp1 | hp2
          · exact hs.bookingKeysLt p (by rw [hBeq]; exact List.mem_append.mpr (Or.inl hp1))
          · rcases List.mem_cons.mp hp2 with rfl | hp3
            · exact hs.bookingKeysLt (id, bk) hbkmem
            · exact hs.bookingKeysLt p
                (by rw [hBeq]; exact List.mem_append.mpr (Or.inr (List.mem_cons_of_mem _ hp3)))
        · show (vals (L1 ++ (bed.id, bed1) :: L2)).Pairwise distinctPair
          rw [hvalsT]
          refine pairwise_replace_middle ?_ ?_ hpairsS
          · intro x hx
            unfold distinctPair at hx ⊢
            simpa [hbed1] using hx
          · intro x hx
            unfold distinctPair at hx ⊢
            simpa [hbed1] using hx
        · show ∀ p ∈ B1 ++ (id, bk1) :: B2, p.2.status = "pending" → _
          intro p hp hpend
          rcases List.mem_append.mp hp with hp1 | hp2
          · have := hs.pendingHasBed p
              (by rw [hBeq]; exact List.mem_append.mpr (Or.inl hp1)) hpend
            obtain ⟨b, hbmem, hbh', hbt'⟩ := this
            rw [hLeq] at hbmem
            obtain ⟨c, hcmem, hch, hct⟩ := mem_vals_replace bed bed1 ⟨rfl, rfl⟩ hbmem
            exact ⟨c, hcmem, by rw [hch, hbh'], by rw [hct, hbt']⟩
          · rcases List.mem_cons.mp hp2 with rfl | hp3
            · exact absurd hpend hbk1st
            · have := hs.pendingHasBed p
                (by rw [hBeq]; exact List.mem_append.mpr (Or.inr (List.mem_cons_of_mem _ hp3)))
                hpend
              obtain ⟨b, hbmem, hbh', hbt'⟩ := this
              rw [hLeq] at hbmem
              obtain ⟨c, hcmem, hch, hct⟩ := mem_vals_replace bed bed1 ⟨rfl, rfl⟩ hbmem
              exact ⟨c, hcmem, by rw [hch, hbh'], by rw [hct, hbt']⟩
        · show ∀ b ∈ vals (L1 ++ (bed.id, bed1) :: L2), _
          rw [hvalsT]
          intro b hb
          rw [List.pairwise_append, List.pairwise_cons] at hpairsS
          rcases List.mem_append.mp hb with hb1 | hb2
          · -- untouched bed left of the match: its pair differs from bed's
            have hbmemS : b ∈ vals s.beds := by
              rw [hvalsS]
              exact List.mem_append.mpr (Or.inl hb1)
            have hdist : distinctPair b bed :=
              hpairsS.2.2 b hb1 bed (List.mem_cons_self _ _)
            have hnomatch : bkMatch b.hospitalId b.bedTypeId bk = false := by
              rw [Bool.eq_false_iff]
              intro hm
              rw [bkMatch_true_iff] at hm
              exact hdist ⟨by rw [hbh, ← hm.2.1], by rw [hbt, ← hm.2.2]⟩
            have hold := hs.bedBounds b hbmemS
            rw [hpcS, hnomatch] at hold
            rw [hpcT]
            constructor
            · exact hold.1
            · have := hold.2
              simpa using this
          · rcases List.mem_cons.mp hb2 with rfl | hb3
            · -- the restored bed itself
              have hbmemS : bed ∈ vals s.beds := by
                rw [hvalsS]
                exact List.mem_append.mpr (Or.inr (List.mem_cons_self _ _))
              have hmatch : bkMatch bed.hospitalId bed.bedTypeId bk = true := by
                rw [bkMatch_true_iff]
                exact ⟨hcond.1, hbh.symm ▸ rfl, hbt.symm ▸ rfl⟩
              have hold := hs.bedBounds bed hbmemS
              rw [hpcS, hmatch] at hold
              rw [hpcT]
              have hA : bed1.hospitalId = bed.hospitalId := rfl
              have hB : bed1.bedTypeId = bed.bedTypeId := rfl
              rw [hA, hB]
              constructor
              · have := hold.1
                show (0 : Int) ≤ bed.availableBeds + 1
                omega
              · show bed.availableBeds + 1 +
                  ((pendingCount B1 bed.hospitalId bed.bedTypeId +
                    pendingCount B2 bed.hospitalId bed.bedTypeId : Nat) : Int) ≤ bed.totalBeds
                have h2 := hold.2
                simp only [if_true] at h2
                push_cast at h2 ⊢
                omega
            · -- untouched bed right of the match
              have hbmemS : b ∈ vals s.beds := by
                rw [hvalsS]
                exact List.mem_append.mpr (Or.inr (List.mem_cons_of_mem _ hb3))
              have hdist : distinctPair bed b :=
                hpairsS.2.1.1 b hb3
              have hnomatch : bkMatch b.hospitalId b.bedTypeId bk = false := by
                rw [Bool.eq_false_iff]
                intro hm
                rw [bkMatch_true_iff] at hm
                exact hdist ⟨by rw [hbh, ← hm.2.1], by rw [hbt, ← hm.2.2]⟩
              have hold := hs.bedBounds b hbmemS
              rw [hpcS, hnomatch] at hold
              rw [hpcT]
              constructor
              · exact hold.1
              · have := hold.2
                simpa using this
    · -- no inventory adjustment: only the booking's status changes
      have hchar : (s.updateBookingStatus id status).2 =
          { s with bookings := B1 ++ (id, { bk with status := status }) :: B2 } := by
        unfold MemStorage.updateBookingStatus
        rw [hbk]
        simp only [if_neg hcond, hsetB]
      rw [hchar]
      set bk1 : Booking := { bk with status := status } with hbk1
      have hbk1st : bk1.status ≠ "pending" := hst
      have hpcS : ∀ h t, pendingCount s.bookings h t =
          pendingCount B1 h t + pendingCount B2 h t +
            (if bkMatch h t bk then 1 else 0) := by
        intro h t
        rw [hBeq, pendingCount_append, pendingCount_cons]
        ring
      have hpcT : ∀ h t, pendingCount (B1 ++ (id, bk1) :: B2) h t =
          pendingCount B1 h t + pendingCount B2 h t := by
        intro h t
        rw [pendingCount_append, pendingCount_cons,
          bkMatch_false_of_status _ _ hbk1st]
        simp
      refine ⟨hs.bedKeysNodup, hs.bedIdAligned, hs.bedKeysLt, ?_, ?_, hs.pairsDistinct, ?_, ?_⟩
      · show (keys (B1 ++ (id, bk1) :: B2)).Nodup
        rw [keys_append, keys_cons]
        have := hs.bookingKeysNodup
        rw [hBeq, keys_append, keys_cons] at this
        exact this
      · show ∀ p ∈ B1 ++ (id, bk1) :: B2, p.1 < s.bookingCurrentId
        intro p hp
        rcases List.mem_append.mp hp with hp1 | hp2
        · exact hs.bookingKeysLt p (by rw [hBeq]; exact List.mem_append.mpr (Or.inl hp1))
        · rcases List.mem_cons.mp hp2 with rfl | hp3
          · exact hs.bookingKeysLt (id, bk) hbkmem
          · exact hs.bookingKeysLt p
              (by rw [hBeq]; exact List.mem_append.mpr (Or.inr (List.mem_cons_of_mem _ hp3)))
      · show ∀ p ∈ B1 ++ (id, bk1) :: B2, p.2.status = "pending" → _
        intro p hp hpend
        rcases List.mem_append.mp hp with hp1 | hp2
        · exact hs.pendingHasBed p
            (by rw [hBeq]; exact List.mem_append.mpr (Or.inl hp1)) hpend
        · rcases List.mem_cons.mp hp2 with rfl | hp3
          · exact absurd hpend hbk1st
          · exact hs.pendingHasBed p
              (by rw [hBeq]; exact List.mem_append.mpr (Or.inr (List.mem_cons_of_mem _ hp3)))
              hpend
      · show ∀ b ∈ vals s.beds, _
        intro b hb
        have hold := hs.bedBounds b hb
        rw [hpcS] at hold
        rw [hpcT]
        constructor
        · exact hold.1
        · have h2 := hold.2
          by_cases hm : bkMatch b.hospitalId b.bedTypeId bk
          · rw [if_pos hm] at h2
            push_cast at h2 ⊢
            omega
          · rw [if_neg hm] at h2
            simpa using h2

theorem find?_append_first {α : Type} {p : α → Bool} {l1 l2 : List α} {x : α}
    (h1 : ∀ y ∈ l1, p y = false) (hx : p x = true) :
    (l1 ++ x :: l2).find? p = some x := by
  induction l1 with
  | nil => rw [List.nil_append, List.find?_cons_of_pos _ hx]
  | cons a l1 ih =>
    rw [List.cons_append,
      List.find?_cons_of_neg _ (by simp [h1 a (List.mem_cons_self _ _)]),
      ih (fun y hy => h1 y (List.mem_cons_of_mem _ hy))]

/-- A decomposition with no earlier pair match determines the first-match
lookup. -/
theorem getBedByHospitalAndType_of_decomp {s : MemStorage} {h t k : Nat} {bed : Bed}
    {L1 L2 : List (Nat × Bed)}
    (hLeq : s.beds = L1 ++ (k, bed) :: L2)
    (hfirst : ∀ q ∈ L1, ¬(q.2.hospitalId = h ∧ q.2.bedTypeId = t))
    (hpair : bed.hospitalId = h ∧ bed.bedTypeId = t) :
    s.getBedByHospitalAndType h t = some bed := by
  unfold MemStorage.getBedByHospitalAndType
  rw [hLeq, vals_append, vals_cons]
  apply find?_append_first
  · intro y hy
    obtain ⟨q, hq, rfl⟩ := List.mem_map.mp hy
    have := hfirst q hq
    rw [Bool.eq_false_iff]
    intro hm
    simp only [Bool.and_eq_true, beq_iff_eq] at hm
    exact this ⟨hm.1, hm.2⟩
  · simp [hpair.1, hpair.2]

/-- `createBooking` under the route guard: the booking is appended and
the first matching bed is decremented. -/
theorem createBooking_char {s : MemStorage} (ins : InsertBooking) (now : Nat) {bed : Bed}
    {L1 L2 : List (Nat × Bed)}
    (hkeysLt : ∀ p ∈ s.bookings, p.1 < s.bookingCurrentId)
    (hnodup : (keys s.beds).Nodup)
    (hLeq : s.beds = L1 ++ (bed.id, bed) :: L2)
    (hfirst : ∀ q ∈ L1, ¬(q.2.hospitalId = ins.hospitalId ∧ q.2.bedTypeId = ins.bedTypeId))
    (hpair : bed.hospitalId = ins.hospitalId ∧ bed.bedTypeId = ins.bedTypeId)
    (hpos : 0 < bed.availableBeds) :
    s.createBooking ins now =
      (mkBooking s.bookingCurrentId ins now,
       { s with
         bookings := s.bookings ++ [(s.bookingCurrentId, mkBooking s.bookingCurrentId ins now)],
         bookingCurrentId := s.bookingCurrentId + 1,
         beds := L1 ++ (bed.id, { bed with availableBeds := bed.availableBeds - 1 }) :: L2 }) := by
  have hfresh : ∀ p ∈ s.bookings, p.1 ≠ s.bookingCurrentId := by
    intro p hp
    exact Nat.ne_of_lt (hkeysLt p hp)
  have hset : setEntry s.bookings s.bookingCurrentId (mkBooking s.bookingCurrentId ins now) =
      s.bookings ++ [(s.bookingCurrentId, mkBooking s.bookingCurrentId ins now)] :=
    setEntry_of_fresh hfresh
  unfold MemStorage.createBooking
  dsimp only
  rw [hset]
  set s1 : MemStorage :=
    { s with
      bookings := s.bookings ++ [(s.bookingCurrentId, mkBooking s.bookingCurrentId ins now)],
      bookingCurrentId := s.bookingCurrentId + 1 } with hs1def
  have hfind1 : s1.getBedByHospitalAndType (mkBooking s.bookingCurrentId ins now).hospitalId
      (mkBooking s.bookingCurrentId ins now).bedTypeId = some bed :=
    getBedByHospitalAndType_of_decomp (s := s1)
      (show s1.beds = L1 ++ (bed.id, bed) :: L2 from hLeq) hfirst hpair
  rw [hfind1]
  dsimp only
  rw [if_pos hpos]
  have hupd := updateBed_decomp (s := s1)
    { availableBeds := some (bed.availableBeds - 1) }
    (show s1.beds = L1 ++ (bed.id, bed) :: L2 from hLeq)
    (show (keys s1.beds).Nodup from hnodup)
  rw [applyPatch_availableBeds] at hupd
  rw [hupd, hs1def]

/-- Booking creation through the `POST /api/bookings` handler preserves
the inventory invariant. -/
theorem inv_postBookingsHandler (s : MemStorage) (data : InsertBooking) (now : Nat)
    (hs : Inv s) : Inv (postBookingsHandler s data now).2 := by
  cases hh : s.getHospital data.hospitalId with
  | none =>
    have hchar : (postBookingsHandler s data now).2 = s := by
      unfold postBookingsHandler
      simp [hh]
    rw [hchar]
    exact hs
  | some hosp =>
    cases happ : hosp.approved with
    | false =>
      have hchar : (postBookingsHandler s data now).2 = s := by
        unfold postBookingsHandler
        simp [hh, happ]
      rw [hchar]
      exact hs
    | true =>
      cases hbed : s.getBedByHospitalAndType data.hospitalId data.bedTypeId with
      | none =>
        have hchar : (postBookingsHandler s data now).2 = s := by
          unfold postBookingsHandler
          simp [hh, happ, hbed]
        rw [hchar]
        exact hs
      | some bed =>
        by_cases hpos : bed.availableBeds ≤ 0
        · have hchar : (postBookingsHandler s data now).2 = s := by
            unfold postBookingsHandler
            simp [hh, happ, hbed, hpos]
          rw [hchar]
          exact hs
        · have hchar : (postBookingsHandler s data now).2 = (s.createBooking data now).2 := by
            unfold postBookingsHandler
            simp [hh, happ, hbed, hpos]
          push_neg at hpos
          obtain ⟨k, L1, L2, hLeq, hbh, hbt, hL1pair⟩ := getBedByHospitalAndType_some_decomp hbed
          have hbedmem : (k, bed) ∈ s.beds := by
            rw [hLeq]
            exact List.mem_append.mpr (Or.inr (List.mem_cons_self _ _))
          have hkid : bed.id = k := hs.bedIdAligned (k, bed) hbedmem
          rw [← hkid] at hLeq hbedmem
          have hcb := createBooking_char data now
            hs.bookingKeysLt hs.bedKeysNodup hLeq hL1pair ⟨hbh, hbt⟩ hpos
          rw [hchar, hcb]
          set bed1 : Bed := { bed with availableBeds := bed.availableBeds - 1 } with hbed1
          set bk : Booking := mkBooking s.bookingCurrentId data now with hbkdef
          set nid := s.bookingCurrentId with hniddef
          have hbkpair : bk.hospitalId = data.hospitalId ∧ bk.bedTypeId = data.bedTypeId :=
            ⟨rfl, rfl⟩
          have hvalsT : vals (L1 ++ (bed.id, bed1) :: L2) = vals L1 ++ bed1 :: vals L2 := by
            rw [vals_append, vals_cons]
          have hvalsS : vals s.beds = vals L1 ++ bed :: vals L2 := by
            rw [hLeq, vals_append, vals_cons]
          have hpairsS : (vals L1 ++ bed :: vals L2).Pairwise distinctPair := by
            rw [← hvalsS]; exact hs.pairsDistinct
          have hpcT : ∀ h t, pendingCount (s.bookings ++ [(nid, bk)]) h t =
              pendingCount s.bookings h t + (if bkMatch h t bk then 1 else 0) := by
            intro h t
            rw [pendingCount_append, pendingCount_cons]
            simp [pendingCount, vals]
          refine ⟨?_, ?_, ?_, ?_, ?_, ?_, ?_, ?_⟩
          · show (keys (L1 ++ (bed.id, bed1) :: L2)).Nodup
            rw [keys_append, keys_cons]
            have := hs.bedKeysNodup
            rw [hLeq, keys_append, keys_cons] at this
            exact this
          · show ∀ p ∈ L1 ++ (bed.id, bed1) :: L2, p.2.id = p.1
            intro p hp
            rcases List.mem_append.mp hp with hp1 | hp2
            · exact hs.bedIdAligned p (by rw [hLeq]; exact List.mem_append.mpr (Or.inl hp1))
            · rcases List.mem_cons.mp hp2 with rfl | hp3
              · rfl
              · exact hs.bedIdAligned p
                  (by rw [hLeq];
                      exact List.mem_append.mpr (Or.inr (List.mem_cons_of_mem _ hp3)))
          · show ∀ p ∈ L1 ++ (bed.id, bed1) :: L2, p.1 < s.bedCurrentId
            intro p hp
            rcases List.mem_append.mp hp with hp1 | hp2
            · exact hs.bedKeysLt p (by rw [hLeq]; exact List.mem_append.mpr (Or.inl hp1))
            · rcases List.mem_cons.mp hp2 with rfl | hp3
              · exact hs.bedKeysLt (bed.id, bed) hbedmem
              · exact hs.bedKeysLt p
                  (by rw [hLeq];
                      exact List.mem_append.mpr (Or.inr (List.mem_cons_of_mem _ hp3)))
          · show (keys (s.bookings ++ [(nid, bk)])).Nodup
            rw [keys_append, List.nodup_append]
            refine ⟨hs.bookingKeysNodup, ?_, ?_⟩
            · show (keys [(nid, bk)]).Nodup
              simp [keys]
            · intro a ha hb
              obtain ⟨q, hq, rfl⟩ := List.mem_map.mp ha
              have hlt := hs.bookingKeysLt q hq
              have heq : q.1 = nid := by simpa [keys] using hb
              omega
          · show ∀ p ∈ s.bookings ++ [(nid, bk)], p.1 < s.bookingCurrentId + 1
            intro p hp
            rcases List.mem_append.mp hp with hp1 | hp2
            · exact Nat.lt_succ_of_lt (hs.bookingKeysLt p hp1)
            · rcases List.mem_singleton.mp hp2 with rfl
              exact Nat.lt_succ_self _
          · show (vals (L1 ++ (bed.id, bed1) :: L2)).Pairwise distinctPair
            rw [hvalsT]
            refine pairwise_replace_middle ?_ ?_ hpairsS
            · intro x hx
              unfold distinctPair at hx ⊢
              simpa [hbed1] using hx
            · intro x hx
              unfold distinctPair at hx ⊢
              simpa [hbed1] using hx
          · show ∀ p ∈ s.bookings ++ [(nid, bk)], p.2.status = "pending" → _
            intro p hp hpend
            rcases List.mem_append.mp hp with hp1 | hp2
            · obtain ⟨b, hbmem, hbh', hbt'⟩ := hs.pendingHasBed p hp1 hpend
              rw [hLeq] at hbmem
              obtain ⟨c, hcmem, hch, hct⟩ :=
                mem_vals_replace bed bed1 ⟨rfl, rfl⟩ hbmem
              exact ⟨c, hcmem, by rw [hch, hbh'], by rw [hct, hbt']⟩
            · rcases List.mem_singleton.mp hp2 with rfl
              refine ⟨bed1, ?_, ?_, ?_⟩
              · rw [hvalsT]
                exact List.mem_append.mpr (Or.inr (List.mem_cons_self _ _))
              · show bed1.hospitalId = bk.hospitalId
                rw [hbkpair.1]
                exact hbh
              · show bed1.bedTypeId = bk.bedTypeId
                rw [hbkpair.2]
                exact hbt
          · show ∀ b ∈ vals (L1 ++ (bed.id, bed1) :: L2), _
            rw [hvalsT]
            intro b hb
            rw [List.pairwise_append, List.pairwise_cons] at hpairsS
            rcases List.mem_append.mp hb with hb1 | hb2
            · have hbmemS : b ∈ vals s.beds := by
                rw [hvalsS]
                exact List.mem_append.mpr (Or.inl hb1)
              have hdist : distinctPair b bed :=
                hpairsS.2.2 b hb1 bed (List.mem_cons_self _ _)
              have hnomatch : bkMatch b.hospitalId b.bedTypeId bk = false := by
                rw [Bool.eq_false_iff]
                intro hm
                rw [bkMatch_true_iff] at hm
                refine hdist ⟨?_, ?_⟩
                · rw [hbh, ← hbkpair.1, ← hm.2.1]
                · rw [hbt, ← hbkpair.2, ← hm.2.2]
              have hold := hs.bedBounds b hbmemS
              rw [hpcT, hnomatch]
              constructor
              · exact hold.1
              · simpa using hold.2
            · rcases List.mem_cons.mp hb2 with rfl | hb3
              · have hbmemS : bed ∈ vals s.beds := by
                  rw [hvalsS]
                  exact List.mem_append.mpr (Or.inr (List.mem_cons_self _ _))
                have hold := hs.bedBounds bed hbmemS
                rw [show bed1.hospitalId = bed.hospitalId from rfl,
                  show bed1.bedTypeId = bed.bedTypeId from rfl, hpcT]
                constructor
                · show (0 : Int) ≤ bed.availableBeds - 1
                  omega
                · show bed.availableBeds - 1 +
                    ((pendingCount s.bookings bed.hospitalId bed.bedTypeId +
                     (if bkMatch bed.hospitalId bed.bedTypeId bk then 1 else 0) : Nat) : Int) ≤
                    bed.totalBeds
                  have h2 := hold.2
                  by_cases hm : bkMatch bed.hospitalId bed.bedTypeId bk
                  · rw [if_pos hm]
                    push_cast
                    push_cast at h2
                    omega
                  · rw [if_neg hm]
                    push_cast
                    push_cast at h2
                    omega
              · have hbmemS : b ∈ vals s.beds := by
                  rw [hvalsS]
                  exact List.mem_append.mpr (Or.inr (List.mem_cons_of_mem _ hb3))
                have hdist : distinctPair bed b :=
                  hpairsS.2.1.1 b hb3
                have hnomatch : bkMatch b.hospitalId b.bedTypeId bk = false := by
                  rw [Bool.eq_false_iff]
                  intro hm
                  rw [bkMatch_true_iff] at hm
                  refine hdist ⟨?_, ?_⟩
                  · rw [hbh, ← hbkpair.1, ← hm.2.1]
                  · rw [hbt, ← hbkpair.2, ← hm.2.2]
                have hold := hs.bedBounds b hbmemS
                rw [hpcT, hnomatch]
                constructor
                · exact hold.1
                · simpa using hold.2

/-- Creating a bed for a pair that has no record yet preserves the
invariant, provided `0 ≤ availableBeds ≤ totalBeds`. -/
theorem inv_createBed (s : MemStorage) (ins : InsertBed) (hs : Inv s)
    (hnone : s.getBedByHospitalAndType ins.hospitalId ins.bedTypeId = none)
    (h0 : 0 ≤ ins.availableBeds) (h1 : ins.availableBeds ≤ ins.totalBeds) :
    Inv (s.createBed ins).2 := by
  have hfresh : ∀ p ∈ s.beds, p.1 ≠ s.bedCurrentId :=
    fun p hp => Nat.ne_of_lt (hs.bedKeysLt p hp)
  have hnomatch := getBedByHospitalAndType_eq_none_iff.mp hnone
  have hchar : (s.createBed ins).2 =
      { s with
        beds := s.beds ++
          [(s.bedCurrentId,
            { id := s.bedCurrentId, hospitalId := ins.hospitalId, bedTypeId := ins.bedTypeId,
              totalBeds := ins.totalBeds, availableBeds := ins.availableBeds,
              pricePerNight := ins.pricePerNight })],
        bedCurrentId := s.bedCurrentId + 1 } := by
    unfold MemStorage.createBed
    dsimp only
    rw [setEntry_of_fresh hfresh]
  rw [hchar]
  set newBed : Bed :=
    { id := s.bedCurrentId, hospitalId := ins.hospitalId, bedTypeId := ins.bedTypeId,
      totalBeds := ins.totalBeds, availableBeds := ins.availableBeds,
      pricePerNight := ins.pricePerNight } with hnbdef
  refine ⟨?_, ?_, ?_, hs.bookingKeysNodup, hs.bookingKeysLt, ?_, ?_, ?_⟩
  · show (keys (s.beds ++ [(s.bedCurrentId, newBed)])).Nodup
    rw [keys_append, List.nodup_append]
    refine ⟨hs.bedKeysNodup, ?_, ?_⟩
    · show (keys [(s.bedCurrentId, newBed)]).Nodup
      simp [keys]
    · intro a ha hb
      obtain ⟨q, hq, rfl⟩ := List.mem_map.mp ha
      have hlt := hs.bedKeysLt q hq
      have heq : q.1 = s.bedCurrentId := by simpa [keys] using hb
      omega
  · show ∀ p ∈ s.beds ++ [(s.bedCurrentId, newBed)], p.2.id = p.1
    intro p hp
    rcases List.mem_append.mp hp with hp1 | hp2
    · exact hs.bedIdAligned p hp1
    · rcases List.mem_singleton.mp hp2 with rfl
      rfl
  · show ∀ p ∈ s.beds ++ [(s.bedCurrentId, newBed)], p.1 < s.bedCurrentId + 1
    intro p hp
    rcases List.mem_append.mp hp with hp1 | hp2
    · exact Nat.lt_succ_of_lt (hs.bedKeysLt p hp1)
    · rcases List.mem_singleton.mp hp2 with rfl
      exact Nat.lt_succ_self _
  · show (vals (s.beds ++ [(s.bedCurrentId, newBed)])).Pairwise distinctPair
    rw [vals_append, List.pairwise_append]
    refine ⟨hs.pairsDistinct, ?_, ?_⟩
    · show (vals [(s.bedCurrentId, newBed)]).Pairwise distinctPair
      simp [vals]
    · intro a ha c hc
      have : c = newBed := by simpa [vals] using hc
      subst this
      intro hC
      exact hnomatch a ha ⟨hC.1, hC.2⟩
  · show ∀ p ∈ s.bookings, p.2.status = "pending" → _
    intro p hp hpend
    obtain ⟨b, hbmem, hbh, hbt⟩ := hs.pendingHasBed p hp hpend
    refine ⟨b, ?_, hbh, hbt⟩
    rw [vals_append]
    exact List.mem_append.mpr (Or.inl hbmem)
  · show ∀ b ∈ vals (s.beds ++ [(s.bedCurrentId, newBed)]), _
    intro b hb
    rw [vals_append] at hb
    rcases List.mem_append.mp hb with hb1 | hb2
    · exact hs.bedBounds b hb1
    · have : b = newBed := by simpa [vals] using hb2
      subst this
      have hpc0 : pendingCount s.bookings newBed.hospitalId newBed.bedTypeId = 0 := by
        by_contra hne
        have hpos : 0 < pendingCount s.bookings newBed.hospitalId newBed.bedTypeId :=
          Nat.pos_of_ne_zero hne
        unfold pendingCount at hpos
        rw [List.countP_pos_iff] at hpos
        obtain ⟨bkv, hbkv, hm⟩ := hpos
        rw [bkMatch_true_iff] at hm
        obtain ⟨q, hq, rfl⟩ := List.mem_map.mp hbkv
        obtain ⟨b', hb'mem, hb'h, hb't⟩ := hs.pendingHasBed q hq hm.1
        refine hnomatch b' hb'mem ⟨?_, ?_⟩
        · rw [hb'h, hm.2.1]
        · rw [hb't, hm.2.2]
      rw [hpc0]
      constructor
      · exact h0
      · simpa using h1

/-- `updateHospitalApproval` never touches beds or bookings. -/
theorem inv_updateHospitalApproval (s : MemStorage) (id : Nat) (approved : Bool)
    (hs : Inv s) : Inv (s.updateHospitalApproval id approved).2 := by
  cases hh : s.getHospital id with
  | none =>
    have hchar : (s.updateHospitalApproval id approved).2 = s := by
      unfold MemStorage.updateHospitalApproval
      simp [hh]
    rw [hchar]
    exact hs
  | some hosp =>
    have hchar : (s.updateHospitalApproval id approved).2 =
        { s with hospitals := setEntry s.hospitals id { hosp with approved := approved } } := by
      unfold MemStorage.updateHospitalApproval
      simp [hh]
    rw [hchar]
    exact hs.of_eq rfl rfl rfl rfl

/-- Hospital registration never touches beds or bookings. -/
theorem inv_registerHospitalHandler (s : MemStorage) (d : InsertHospital)
    (hs : Inv s) : Inv (registerHospitalHandler s d).2 := by
  cases hu : s.getHospitalByUsername d.username with
  | some hosp =>
    have hchar : (registerHospitalHandler s d).2 = s := by
      unfold registerHospitalHandler
      simp [hu]
    rw [hchar]
    exact hs
  | none =>
    have hchar : (registerHospitalHandler s d).2 = (s.createHospital d).2 := by
      unfold registerHospitalHandler
      simp [hu]
    rw [hchar]
    exact hs.of_eq rfl rfl rfl rfl

/-- Admin approval never touches beds or bookings. -/
theorem inv_approveHospitalHandler (s : MemStorage) (hid : Nat)
    (hs : Inv s) : Inv (approveHospitalHandler s hid).2 := by
  cases hh : s.getHospital hid with
  | none =>
    have hchar : (approveHospitalHandler s hid).2 = s := by
      unfold approveHospitalHandler
      simp [hh]
    rw [hchar]
    exact hs
  | some hosp =>
    have hchar : (approveHospitalHandler s hid).2 = (s.updateHospitalApproval hid true).2 := by
      unfold approveHospitalHandler
      cases hres : s.updateHospitalApproval hid true with
      | mk r s1 => cases r <;> simp [hh, hres]
    rw [hchar]
    exact inv_updateHospitalApproval s hid true hs

/-- User-side cancellation preserves the invariant. -/
theorem inv_cancelUserBookingHandler (s : MemStorage) (uid bid : Nat)
    (hs : Inv s) : Inv (cancelUserBookingHandler s uid bid).2 := by
  cases hbk : s.getBooking bid with
  | none =>
    have hchar : (cancelUserBookingHandler s uid bid).2 = s := by
      unfold cancelUserBookingHandler
      simp [hbk]
    rw [hchar]
    exact hs
  | some bk =>
    by_cases huid : bk.userId = uid
    · by_cases hpend : bk.status = "pending"
      · have hchar : (cancelUserBookingHandler s uid bid).2 =
            (s.updateBookingStatus bid "canceled").2 := by
          unfold cancelUserBookingHandler
          cases hres : s.updateBookingStatus bid "canceled" with
          | mk r s1 => cases r <;> simp [hbk, huid, hpend, hres]
        rw [hchar]
        exact inv_updateBookingStatus s bid "canceled" hs (by decide)
      · have hchar : (cancelUserBookingHandler s uid bid).2 = s := by
          unfold cancelUserBookingHandler
          simp [hbk, huid, hpend]
        rw [hchar]
        exact hs
    · have hchar : (cancelUserBookingHandler s uid bid).2 = s := by
        unfold cancelUserBookingHandler
        simp [hbk, huid]
      rw [hchar]
      exact hs

/-- Hospital-side status updates preserve the invariant (the route only
forwards approved/rejected/canceled). -/
theorem inv_patchHospitalBookingHandler (s : MemStorage) (hid bid : Nat) (status : String)
    (hs : Inv s) : Inv (patchHospitalBookingHandler s hid bid status).2 := by
  by_cases hvalid : (["approved", "rejected", "canceled"].contains status) = true
  · have hmem : status ∈ ["approved", "rejected", "canceled"] := by
      simpa using hvalid
    have hst : status ≠ "pending" := by
      simp only [List.mem_cons, List.mem_singleton, List.not_mem_nil, or_false] at hmem
      rcases hmem with rfl | rfl | rfl <;> decide
    have hcf : (!(["approved", "rejected", "canceled"].contains status)) = false := by
      rw [hvalid]
      rfl
    cases hbk : s.getBooking bid with
    | none =>
      have hchar : (patchHospitalBookingHandler s hid bid status).2 = s := by
        unfold patchHospitalBookingHandler
        rw [hcf]
        simp [hbk]
      rw [hchar]
      exact hs
    | some bk =>
      by_cases hhid : bk.hospitalId = hid
      · have hchar : (patchHospitalBookingHandler s hid bid status).2 =
            (s.updateBookingStatus bid status).2 := by
          unfold patchHospitalBookingHandler
          rw [hcf]
          cases hres : s.updateBookingStatus bid status with
          | mk r s1 => cases r <;> simp [hbk, hhid, hres]
        rw [hchar]
        exact inv_updateBookingStatus s bid status hs hst
      · have hchar : (patchHospitalBookingHandler s hid bid status).2 = s := by
          unfold patchHospitalBookingHandler
          rw [hcf]
          simp [hbk, hhid]
        rw [hchar]
        exact hs
  · have hcv : (["approved", "rejected", "canceled"].contains status) = false :=
      Bool.not_eq_true _ ▸ eq_false_of_ne_true hvalid
    have hcf : (!(["approved", "rejected", "canceled"].contains status)) = true := by
      rw [hcv]
      rfl
    have hchar : (patchHospitalBookingHandler s hid bid status).2 = s := by
      unfold patchHospitalBookingHandler
      rw [hcf]
      simp
    rw [hchar]
    exact hs

/-- Bed creation through the `POST /api/hospital/beds` handler, in its
creation branch (no record for the pair yet), preserves the invariant. -/
theorem inv_postHospitalBedsHandler_create (s : MemStorage) (ins : InsertBed)
    (hs : Inv s)
    (hnone : s.getBedByHospitalAndType ins.hospitalId ins.bedTypeId = none)
    (h0 : 0 ≤ ins.availableBeds) (h1 : ins.availableBeds ≤ ins.totalBeds) :
    Inv (postHospitalBedsHandler s ins).2 := by
  have hchar : (postHospitalBedsHandler s ins).2 = (s.createBed ins).2 := by
    unfold postHospitalBedsHandler
    simp [hnone]
  rw [hchar]
  exact inv_createBed s ins hs hnone h0 h1

/-! ## Operation traces -/

/-- The mutating requests considered by the inventory invariant
(each one is the corresponding route handler). -/
inductive Op
  | createBed (ins : InsertBed)
  | book (data : InsertBooking) (now : Nat)
  | cancel (userId bookingId : Nat)
  | hospitalSetStatus (hospitalId bookingId : Nat) (status : String)
  | registerHospital (data : InsertHospital)
  | approveHospital (hospitalId : Nat)
  deriving Repr

/-- Run one request against the store. -/
def applyOp (s : MemStorage) : Op → MemStorage
  | Op.createBed ins => (postHospitalBedsHandler s ins).2
  | Op.book data now => (postBookingsHandler s data now).2
  | Op.cancel uid bid => (cancelUserBookingHandler s uid bid).2
  | Op.hospitalSetStatus hid bid st => (patchHospitalBookingHandler s hid bid st).2
  | Op.registerHospital d => (registerHospitalHandler s d).2
  | Op.approveHospital hid => (approveHospitalHandler s hid).2

/-- Run a sequence of requests against the store. -/
def applyOps (s : MemStorage) (ops : List Op) : MemStorage :=
  ops.foldl applyOp s

/-- A trace in which every bed POST is a true bed-creation: no record
for its (hospitalId, bedTypeId) pair exists at that point (otherwise the
handler performs an update, not a creation), and the created bed
satisfies `0 ≤ availableBeds ≤ totalBeds`.  Hospital status updates may
request any status string; the handler itself restricts them. -/
inductive OkTrace : MemStorage → List Op → Prop
  | nil (s : MemStorage) : OkTrace s []
  | consCreateBed {s : MemStorage} {ins : InsertBed} {ops : List Op}
      (hnone : s.getBedByHospitalAndType ins.hospitalId ins.bedTypeId = none)
      (h0 : 0 ≤ ins.availableBeds) (h1 : ins.availableBeds ≤ ins.totalBeds)
      (htail : OkTrace (applyOp s (Op.createBed ins)) ops) :
      OkTrace s (Op.createBed ins :: ops)
  | consBook {s : MemStorage} {data : InsertBooking} {now : Nat} {ops : List Op}
      (htail : OkTrace (applyOp s (Op.book data now)) ops) :
      OkTrace s (Op.book data now :: ops)
  | consCancel {s : MemStorage} {uid bid : Nat} {ops : List Op}
      (htail : OkTrace (applyOp s (Op.cancel uid bid)) ops) :
      OkTrace s (Op.cancel uid bid :: ops)
  | consHospitalSetStatus {s : MemStorage} {hid bid : Nat} {status : String} {ops : List Op}
      (htail : OkTrace (applyOp s (Op.hospitalSetStatus hid bid status)) ops) :
      OkTrace s (Op.hospitalSetStatus hid bid status :: ops)
  | consRegisterHospital {s : MemStorage} {d : InsertHospital} {ops : List Op}
      (htail : OkTrace (applyOp s (Op.registerHospital d)) ops) :
      OkTrace s (Op.registerHospital d :: ops)
  | consApproveHospital {s : MemStorage} {hid : Nat} {ops : List Op}
      (htail : OkTrace (applyOp s (Op.approveHospital hid)) ops) :
      OkTrace s (Op.approveHospital hid :: ops)

/-- The invariant is preserved along every admissible trace. -/
theorem inv_applyOps {s : MemStorage} {ops : List Op}
    (hs : Inv s) (hok : OkTrace s ops) : Inv (applyOps s ops) := by
  induction hok with
  | nil s => exact hs
  | consCreateBed hnone h0 h1 htail ih =>
    refine ih ?_
    exact inv_postHospitalBedsHandler_create _ _ hs hnone h0 h1
  | consBook htail ih =>
    exact ih (inv_postBookingsHandler _ _ _ hs)
  | consCancel htail ih =>
    exact ih (inv_cancelUserBookingHandler _ _ _ hs)
  | consHospitalSetStatus htail ih =>
    exact ih (inv_patchHospitalBookingHandler _ _ _ _ hs)
  | consRegisterHospital htail ih =>
    exact ih (inv_registerHospitalHandler _ _ hs)
  | consApproveHospital htail ih =>
    exact ih (inv_approveHospitalHandler _ _ hs)

/-- Any state with no beds and no bookings satisfies the invariant. -/
theorem inv_of_empty {s : MemStorage} (hbeds : s.beds = []) (hbookings : s.bookings = []) :
    Inv s := by
  refine ⟨?_, ?_, ?_, ?_, ?_, ?_, ?_, ?_⟩
  · rw [hbeds]; simp [keys]
  · rw [hbeds]; simp
  · rw [hbeds]; simp
  · rw [hbookings]; simp [keys]
  · rw [hbookings]; simp
  · rw [hbeds]; simp [vals]
  · rw [hbookings]; simp
  · rw [hbeds]; simp [vals]

/-- The store right after construction satisfies the invariant. -/
theorem inv_initialStorage : Inv initialStorage :=
  inv_of_empty rfl rfl

/-! ## Claims -/

/-- C1: For every bed record, after any sequence of bed-creation,
booking-creation, and cancellation operations (with no directory-sync
overwrite interleaved), the invariant `0 ≤ availableBeds ≤ totalBeds`
holds, assuming each bed was created with
`0 ≤ availableBeds ≤ totalBeds`.  Operations are the route handlers;
hospital registration/approval and hospital-side status updates are
also permitted in the trace. -/
theorem c1_bed_inventory_invariant (ops : List Op)
    (hok : OkTrace initialStorage ops) :
    ∀ b ∈ vals (applyOps initialStorage ops).beds,
      0 ≤ b.availableBeds ∧ b.availableBeds ≤ b.totalBeds :=
  (inv_applyOps inv_initialStorage hok).bounds

/-- A concrete admissible trace for the C1 witness: register and approve
a hospital, create an ICU bed with 2/2, book twice, cancel one booking,
approve the other. -/
def c1DemoOps : List Op :=
  [Op.registerHospital
    { username := "h1", password := "pw", name := "General One", email := "h1@x.test"
      address := "1 Main St", city := "Springfield", state := "IL", zipCode := "11111"
      phone := "555" },
   Op.approveHospital 1,
   Op.createBed { hospitalId := 1, bedTypeId := 1, totalBeds := 2, availableBeds := 2 },
   Op.book { userId := 1, hospitalId := 1, bedTypeId := 1, patientName := "Pat" } 0,
   Op.book { userId := 1, hospitalId := 1, bedTypeId := 1, patientName := "Quinn" } 0,
   Op.cancel 1 1,
   Op.hospitalSetStatus 1 2 "approved"]

/-- Witness for C1 at a concrete trace. -/
theorem c1_bed_inventory_invariant_witness :
    OkTrace initialStorage c1DemoOps ∧
    ∀ b ∈ vals (applyOps initialStorage c1DemoOps).beds,
      0 ≤ b.availableBeds ∧ b.availableBeds ≤ b.totalBeds := by
  have hok : OkTrace initialStorage c1DemoOps := by
    refine OkTrace.consRegisterHospital ?_
    refine OkTrace.consApproveHospital ?_
    refine OkTrace.consCreateBed (by decide) (by decide) (by decide) ?_
    refine OkTrace.consBook ?_
    refine OkTrace.consBook ?_
    refine OkTrace.consCancel ?_
    refine OkTrace.consHospitalSetStatus ?_
    exact OkTrace.nil _
  exact ⟨hok, c1_bed_inventory_invariant c1DemoOps hok⟩

/-- C2: For every booking request targeting a bed record whose
`availableBeds` equals 0, the booking-creation operation
(`POST /api/bookings`) fails, creates no booking record, and leaves
every bed record's `availableBeds` and `totalBeds` unchanged — the
whole store is returned untouched. -/
theorem c2_booking_exhausted_fails (s : MemStorage) (data : InsertBooking) (now : Nat)
    (bed : Bed)
    (hbed : s.getBedByHospitalAndType data.hospitalId data.bedTypeId = some bed)
    (hzero : bed.availableBeds = 0) :
    ∃ e, postBookingsHandler s data now = (Except.error e, s) := by
  cases hh : s.getHospital data.hospitalId with
  | none =>
    refine ⟨"Hospital not found", ?_⟩
    unfold postBookingsHandler
    simp [hh]
  | some hosp =>
    cases happ : hosp.approved with
    | false =>
      refine ⟨"Hospital not found", ?_⟩
      unfold postBookingsHandler
      simp [hh, happ]
    | true =>
      refine ⟨"No beds available of this type", ?_⟩
      unfold postBookingsHandler
      have hle : bed.availableBeds ≤ 0 := by omega
      simp [hh, happ, hbed, hle]

/-- A store with one approved hospital and one exhausted bed
(`totalBeds = 1`, `availableBeds = 0`). -/
def c2State : MemStorage :=
  applyOps initialStorage
    [Op.registerHospital
      { username := "h2", password := "pw", name := "General Two", email := "h2@x.test"
        address := "2 Main St", city := "Springfield", state := "IL", zipCode := "22222"
        phone := "555" },
     Op.approveHospital 1,
     Op.createBed { hospitalId := 1, bedTypeId := 1, totalBeds := 1, availableBeds := 0 }]

/-- Witness for C2 at the concrete exhausted-bed store. -/
theorem c2_booking_exhausted_fails_witness :
    c2State.getBedByHospitalAndType 1 1 =
      some { id := 1, hospitalId := 1, bedTypeId := 1, totalBeds := 1, availableBeds := 0,
             pricePerNight := none } ∧
    ∃ e, postBookingsHandler c2State
        { userId := 1, hospitalId := 1, bedTypeId := 1, patientName := "Pat" } 0 =
      (Except.error e, c2State) :=
  ⟨by decide,
   c2_booking_exhausted_fails c2State
     { userId := 1, hospitalId := 1, bedTypeId := 1, patientName := "Pat" } 0
     { id := 1, hospitalId := 1, bedTypeId := 1, totalBeds := 1, availableBeds := 0,
       pricePerNight := none }
     (by decide) (by decide)⟩

/-- C4: Transitioning a booking's status leaves every field of every bed
record unchanged unless the transition is pending → canceled; in
particular approving or rejecting a pending booking never changes
`availableBeds`. -/
theorem c4_approve_reject_frame (s : MemStorage) (id : Nat) (bk : Booking) (status : String)
    (hbk : s.getBooking id = some bk)
    (hnc : ¬(bk.status = "pending" ∧ status = "canceled")) :
    (s.updateBookingStatus id status).2.beds = s.beds := by
  unfold MemStorage.updateBookingStatus
  rw [hbk]
  simp only [if_neg hnc]

/-- A store with one approved hospital, a 3/3 bed, and one pending
booking (id 1). -/
def c4State : MemStorage :=
  applyOps initialStorage
    [Op.registerHospital
      { username := "h4", password := "pw", name := "General Four", email := "h4@x.test"
        address := "4 Main St", city := "Springfield", state := "IL", zipCode := "44444"
        phone := "555" },
     Op.approveHospital 1,
     Op.createBed { hospitalId := 1, bedTypeId := 1, totalBeds := 3, availableBeds := 3 },
     Op.book { userId := 1, hospitalId := 1, bedTypeId := 1, patientName := "Pat" } 0]

/-- Witness for C4: approving the pending booking leaves the beds map
unchanged. -/
theorem c4_approve_reject_frame_witness :
    c4State.getBooking 1 =
      some (mkBooking 1 { userId := 1, hospitalId := 1, bedTypeId := 1, patientName := "Pat" } 0) ∧
    (mkBooking 1 { userId := 1, hospitalId := 1, bedTypeId := 1, patientName := "Pat" } 0).status
      = "pending" ∧
    (c4State.updateBookingStatus 1 "approved").2.beds = c4State.beds :=
  ⟨by decide, by decide,
   c4_approve_reject_frame c4State 1
     (mkBooking 1 { userId := 1, hospitalId := 1, bedTypeId := 1, patientName := "Pat" } 0)
     "approved" (by decide) (by decide)⟩

/-- C10: For a pending booking whose (hospitalId, bedTypeId) pair has no
bed record, `updateBookingStatus(id, "canceled")` succeeds — it returns
the booking with status "canceled" and rewrites only the bookings map,
leaving every bed record unchanged and signalling no error. -/
theorem c10_cancel_without_bed (s : MemStorage) (id : Nat) (bk : Booking)
    (hbk : s.getBooking id = some bk) (hpend : bk.status = "pending")
    (hnone : s.getBedByHospitalAndType bk.hospitalId bk.bedTypeId = none) :
    s.updateBookingStatus id "canceled" =
      (some { bk with status := "canceled" },
       { s with bookings := setEntry s.bookings id { bk with status := "canceled" } }) := by
  unfold MemStorage.updateBookingStatus
  rw [hbk]
  simp [hnone, hpend]

/-- A store holding a pending booking created directly against a pair
with no bed record (the store-level `createBooking` accepts this). -/
def c10State : MemStorage :=
  (initialStorage.createBooking
    { userId := 1, hospitalId := 1, bedTypeId := 1, patientName := "Pat" } 0).2

/-- Witness for C10 at the concrete bedless pending booking. -/
theorem c10_cancel_without_bed_witness :
    c10State.getBedByHospitalAndType 1 1 = none ∧
    c10State.updateBookingStatus 1 "canceled" =
      (some { mkBooking 1 { userId := 1, hospitalId := 1, bedTypeId := 1, patientName := "Pat" } 0
                with status := "canceled" },
       { c10State with
         bookings := setEntry c10State.bookings 1
           { mkBooking 1 { userId := 1, hospitalId := 1, bedTypeId := 1, patientName := "Pat" } 0
               with status := "canceled" } }) :=
  ⟨by decide,
   c10_cancel_without_bed c10State 1
     (mkBooking 1 { userId := 1, hospitalId := 1, bedTypeId := 1, patientName := "Pat" } 0)
     (by decide) (by decide) (by decide)⟩

/-- C3: For a bed with `availableBeds = a > 0` (under an approved
hospital, in a store with well-formed keys), booking and then canceling
the booking while still pending restores `availableBeds` to exactly `a`;
a second cancellation of the same booking fails (its status is no longer
"pending") and leaves the store — in particular all inventory —
unchanged. -/
theorem c3_book_cancel_roundtrip (s : MemStorage) (data : InsertBooking) (now : Nat)
    (hosp : Hospital) (bed : Bed) (a : Int)
    (hn : (keys s.beds).Nodup)
    (hal : ∀ p ∈ s.beds, p.2.id = p.1)
    (hblt : ∀ p ∈ s.bookings, p.1 < s.bookingCurrentId)
    (hh : s.getHospital data.hospitalId = some hosp)
    (happ : hosp.approved = true)
    (hbed : s.getBedByHospitalAndType data.hospitalId data.bedTypeId = some bed)
    (ha0 : bed.availableBeds = a) (hpos : 0 < a)
    (hstatus : jsOrDefault data.status "pending" = "pending") :
    ∃ bk s1 bk2 s2 e,
      postBookingsHandler s data now = (Except.ok bk, s1) ∧
      (s1.getBedByHospitalAndType data.hospitalId data.bedTypeId).map Bed.availableBeds
        = some (a - 1) ∧
      cancelUserBookingHandler s1 data.userId bk.id = (Except.ok bk2, s2) ∧
      bk2.status = "canceled" ∧
      (s2.getBedByHospitalAndType data.hospitalId data.bedTypeId).map Bed.availableBeds
        = some a ∧
      cancelUserBookingHandler s2 data.userId bk.id = (Except.error e, s2) := by
  have hposb : 0 < bed.availableBeds := by omega
  have hnle : ¬ bed.availableBeds ≤ 0 := by omega
  obtain ⟨k, L1, L2, hLeq, hbh, hbt, hL1pair⟩ := getBedByHospitalAndType_some_decomp hbed
  have hbedmem : (k, bed) ∈ s.beds := by
    rw [hLeq]
    exact List.mem_append.mpr (Or.inr (List.mem_cons_self _ _))
  have hkid : bed.id = k := hal (k, bed) hbedmem
  rw [← hkid] at hLeq
  have hcb := createBooking_char data now hblt hn hLeq hL1pair ⟨hbh, hbt⟩ hposb
  set bkB : Booking := mkBooking s.bookingCurrentId data now with hbkB
  set bedm : Bed := { bed with availableBeds := bed.availableBeds - 1 } with hbedm
  set st1 : MemStorage :=
    { s with
      bookings := s.bookings ++ [(s.bookingCurrentId, bkB)],
      bookingCurrentId := s.bookingCurrentId + 1,
      beds := L1 ++ (bed.id, bedm) :: L2 } with hst1
  have hstB : bkB.status = "pending" := hstatus
  have huidB : bkB.userId = data.userId := rfl
  -- step 1: the booking handler succeeds and decrements the bed
  have h1 : postBookingsHandler s data now = (Except.ok bkB, st1) := by
    unfold postBookingsHandler
    simp [hh, happ, hbed, hnle, hcb, hst1]
  have hst1beds : st1.beds = L1 ++ (bed.id, bedm) :: L2 := by rw [hst1]
  have hst1bkgs : st1.bookings = s.bookings ++ [(s.bookingCurrentId, bkB)] := by rw [hst1]
  have hst1keys : (keys st1.beds).Nodup := by
    rw [hst1beds, keys_append, keys_cons]
    have htmp := hn
    rw [hLeq, keys_append, keys_cons] at htmp
    exact htmp
  have hfind1 : st1.getBedByHospitalAndType data.hospitalId data.bedTypeId = some bedm :=
    getBedByHospitalAndType_of_decomp (s := st1) hst1beds hL1pair ⟨hbh, hbt⟩
  have h2 : (st1.getBedByHospitalAndType data.hospitalId data.bedTypeId).map Bed.availableBeds
      = some (a - 1) := by
    rw [hfind1]
    simp [hbedm, ha0]
  -- step 2: canceling the pending booking restores the bed
  have hbkst1 : st1.getBooking s.bookingCurrentId = some bkB := by
    unfold MemStorage.getBooking
    rw [hst1bkgs]
    exact getEntry_append_fresh (fun p hp => Nat.ne_of_lt (hblt p hp))
  have hfind1b : st1.getBedByHospitalAndType bkB.hospitalId bkB.bedTypeId = some bedm := hfind1
  have hupd2 := updateBed_decomp (s := st1)
    { availableBeds := some (bedm.availableBeds + 1) }
    (show st1.beds = L1 ++ (bedm.id, bedm) :: L2 from hst1beds) hst1keys
  rw [applyPatch_availableBeds] at hupd2
  have hset2 : setEntry st1.bookings s.bookingCurrentId { bkB with status := "canceled" } =
      s.bookings ++ [(s.bookingCurrentId, { bkB with status := "canceled" })] := by
    rw [hst1bkgs]
    exact setEntry_replace _ (fun p hp => Nat.ne_of_lt (hblt p hp))
      (fun p hp => absurd hp (List.not_mem_nil p))
  have hupdchar : st1.updateBookingStatus s.bookingCurrentId "canceled" =
      (some { bkB with status := "canceled" },
       { st1 with
         beds := L1 ++ (bedm.id, { bedm with availableBeds := bedm.availableBeds + 1 }) :: L2,
         bookings := s.bookings ++ [(s.bookingCurrentId, { bkB with status := "canceled" })] }) := by
    unfold MemStorage.updateBookingStatus
    rw [hbkst1]
    dsimp only
    rw [if_pos (show bkB.status = "pending" ∧ ("canceled" : String) = "canceled"
      from ⟨hstB, rfl⟩)]
    rw [hfind1b]
    dsimp only
    rw [hupd2]
    dsimp only
    rw [hset2]
  set bkB2 : Booking := { bkB with status := "canceled" } with hbkB2
  set bedm2 : Bed := { bedm with availableBeds := bedm.availableBeds + 1 } with hbedm2
  set st2 : MemStorage :=
    { st1 with
      beds := L1 ++ (bedm.id, bedm2) :: L2,
      bookings := s.bookings ++ [(s.bookingCurrentId, bkB2)] } with hst2
  have h3 : cancelUserBookingHandler st1 data.userId s.bookingCurrentId =
      (Except.ok bkB2, st2) := by
    unfold cancelUserBookingHandler
    rw [hbkst1]
    dsimp only
    rw [if_neg (not_not_intro huidB), if_neg (not_not_intro hstB), hupdchar]
  have h4 : bkB2.status = "canceled" := rfl
  have hst2beds : st2.beds = L1 ++ (bedm.id, bedm2) :: L2 := by rw [hst2]
  have hst2bkgs : st2.bookings = s.bookings ++ [(s.bookingCurrentId, bkB2)] := by rw [hst2]
  have hfind2 : st2.getBedByHospitalAndType data.hospitalId data.bedTypeId = some bedm2 :=
    getBedByHospitalAndType_of_decomp (s := st2) hst2beds hL1pair ⟨hbh, hbt⟩
  have h5 : (st2.getBedByHospitalAndType data.hospitalId data.bedTypeId).map Bed.availableBeds
      = some a := by
    rw [hfind2]
    show some bedm2.availableBeds = some a
    have hval : bedm2.availableBeds = bed.availableBeds - 1 + 1 := rfl
    rw [hval, ha0]
    ring_nf
  -- step 3: a second cancellation fails and changes nothing
  have hbkst2 : st2.getBooking s.bookingCurrentId = some bkB2 := by
    unfold MemStorage.getBooking
    rw [hst2bkgs]
    exact getEntry_append_fresh (fun p hp => Nat.ne_of_lt (hblt p hp))
  have huidB2 : bkB2.userId = data.userId := rfl
  have hstB2 : bkB2.status ≠ "pending" := by
    intro hcon
    have hx : bkB2.status = "canceled" := rfl
    rw [hx] at hcon
    exact absurd hcon (by decide)
  have h6 : cancelUserBookingHandler st2 data.userId s.bookingCurrentId =
      (Except.error "Can only cancel pending bookings", st2) := by
    unfold cancelUserBookingHandler
    rw [hbkst2]
    simp only [if_neg (not_not_intro huidB2), if_pos hstB2]
  exact ⟨bkB, st1, bkB2, st2, "Can only cancel pending bookings",
    h1, h2, h3, h4, h5, h6⟩

/-- A store with one approved hospital and one 5/5 bed, for the C3
witness. -/
def c3State : MemStorage :=
  applyOps initialStorage
    [Op.registerHospital
      { username := "h3", password := "pw", name := "General Three", email := "h3@x.test"
        address := "3 Main St", city := "Springfield", state := "IL", zipCode := "33333"
        phone := "555" },
     Op.approveHospital 1,
     Op.createBed { hospitalId := 1, bedTypeId := 1, totalBeds := 5, availableBeds := 5 }]

/-- The hospital record held by `c3State`. -/
def c3Hospital : Hospital :=
  { id := 1, username := "h3", password := "pw", name := "General Three", email := "h3@x.test"
    address := "3 Main St", city := "Springfield", state := "IL", zipCode := "33333"
    phone := "555", website := none, latitude := none, longitude := none, approved := true }

/-- The bed record held by `c3State`. -/
def c3Bed : Bed :=
  { id := 1, hospitalId := 1, bedTypeId := 1, totalBeds := 5, availableBeds := 5,
    pricePerNight := none }

/-- Witness for C3 at the concrete 5/5 bed. -/
theorem c3_book_cancel_roundtrip_witness :
    c3State.getBedByHospitalAndType 1 1 = some c3Bed ∧
    ∃ bk s1 bk2 s2 e,
      postBookingsHandler c3State
          { userId := 1, hospitalId := 1, bedTypeId := 1, patientName := "Pat" } 0 =
        (Except.ok bk, s1) ∧
      (s1.getBedByHospitalAndType 1 1).map Bed.availableBeds = some (5 - 1) ∧
      cancelUserBookingHandler s1 1 bk.id = (Except.ok bk2, s2) ∧
      bk2.status = "canceled" ∧
      (s2.getBedByHospitalAndType 1 1).map Bed.availableBeds = some 5 ∧
      cancelUserBookingHandler s2 1 bk.id = (Except.error e, s2) :=
  ⟨by decide,
   c3_book_cancel_roundtrip c3State
     { userId := 1, hospitalId := 1, bedTypeId := 1, patientName := "Pat" } 0
     c3Hospital c3Bed 5
     (by decide) (by decide) (by decide) (by decide) (by decide) (by decide)
     (by decide) (by decide) (by decide)⟩

/-- A store already holding a bed record for the pair (1, 1). -/
def c5State : MemStorage :=
  (initialStorage.createBed
    { hospitalId := 1, bedTypeId := 1, totalBeds := 2, availableBeds := 2 }).2

/-- C5 counterexample: a bed record for the pair (1, 1) exists, yet
`createBed` for that same pair does not fail — it returns a brand-new
record (fresh id 2) and the store gains a second record for the pair. -/
theorem c5_createBed_duplicate_counterexample :
    (c5State.getBedByHospitalAndType 1 1).isSome = true ∧
    (c5State.createBed
        { hospitalId := 1, bedTypeId := 1, totalBeds := 4, availableBeds := 4 }).1 =
      { id := 2, hospitalId := 1, bedTypeId := 1, totalBeds := 4, availableBeds := 4,
        pricePerNight := none } ∧
    (c5State.createBed
        { hospitalId := 1, bedTypeId := 1, totalBeds := 4, availableBeds := 4 }).2.beds.length =
      c5State.beds.length + 1 := by
  decide

/-- C5 (amended): `createBed` performs no duplicate check — whether or
not a record for the (hospitalId, bedTypeId) pair already exists, it
returns a new record carrying the freshly generated id `bedCurrentId`
and appends it to the store; duplicate prevention is the caller's job
(the bed POST route updates the existing record instead of calling
`createBed`). -/
theorem c5_createBed_always_creates (s : MemStorage) (ins : InsertBed)
    (hfresh : ∀ p ∈ s.beds, p.1 < s.bedCurrentId) :
    (s.createBed ins).1 =
      { id := s.bedCurrentId, hospitalId := ins.hospitalId, bedTypeId := ins.bedTypeId,
        totalBeds := ins.totalBeds, availableBeds := ins.availableBeds,
        pricePerNight := ins.pricePerNight } ∧
    (s.createBed ins).2.beds = s.beds ++ [(s.bedCurrentId, (s.createBed ins).1)] ∧
    (s.createBed ins).2.bedCurrentId = s.bedCurrentId + 1 := by
  have hf : ∀ p ∈ s.beds, p.1 ≠ s.bedCurrentId := fun p hp => Nat.ne_of_lt (hfresh p hp)
  refine ⟨rfl, ?_, rfl⟩
  show (s.createBed ins).2.beds = _
  unfold MemStorage.createBed
  dsimp only
  rw [setEntry_of_fresh hf]

/-- Witness for the amended C5 on the duplicate-pair store. -/
theorem c5_createBed_always_creates_witness :
    (∀ p ∈ c5State.beds, p.1 < c5State.bedCurrentId) ∧
    ((c5State.createBed
        { hospitalId := 1, bedTypeId := 1, totalBeds := 4, availableBeds := 4 }).1 =
      { id := c5State.bedCurrentId, hospitalId := 1, bedTypeId := 1, totalBeds := 4,
        availableBeds := 4, pricePerNight := none } ∧
     (c5State.createBed
        { hospitalId := 1, bedTypeId := 1, totalBeds := 4, availableBeds := 4 }).2.beds =
      c5State.beds ++ [(c5State.bedCurrentId,
        (c5State.createBed
          { hospitalId := 1, bedTypeId := 1, totalBeds := 4, availableBeds := 4 }).1)] ∧
     (c5State.createBed
        { hospitalId := 1, bedTypeId := 1, totalBeds := 4, availableBeds := 4 }).2.bedCurrentId =
      c5State.bedCurrentId + 1) :=
  ⟨by decide,
   c5_createBed_always_creates c5State
     { hospitalId := 1, bedTypeId := 1, totalBeds := 4, availableBeds := 4 } (by decide)⟩

/-- C6: Whenever the external source is unavailable — no non-empty API
key configured, or the health probe throws, or it returns a non-200
status — the directory-sync hospital listing returns exactly the locally
stored approved hospitals and the store itself untouched (so no
hospital, bed-type, or bed record is created, modified, or deleted). -/
theorem c6_sync_unavailable_fallback (cfg : ApiConfig) (env : RemoteEnv) (s : MemStorage)
    (location : Option String)
    (hun : cfg.apiKey = "" ∨ env.probe = ProbeResult.err ∨
      ∃ st, env.probe = ProbeResult.ok st ∧ st ≠ 200) :
    getHospitalsByLocation cfg env s location = (s.getApprovedHospitals, s) := by
  have hav : isApiAvailable cfg env.probe = false := by
    unfold isApiAvailable
    rcases hun with hk | hp | ⟨st, hp, hst⟩
    · rw [if_pos hk]
    · rw [hp]
      split
      · rfl
      · rfl
    · rw [hp]
      split <;> simp [hst]
  unfold getHospitalsByLocation
  rw [hav]
  rfl

/-- The environment used by the C6 witness: no API key, failing probe,
and a fetch that would return data if it were ever consulted. -/
def c6Env : RemoteEnv :=
  { probe := ProbeResult.err, fetch := fun _ => FetchResult.ok [] }

/-- Witness for C6: with no API key the sync returns the local approved
hospitals of the freshly constructed store. -/
theorem c6_sync_unavailable_fallback_witness :
    ({ apiKey := "", apiUrl := "https://api.healthcare.gov/api/v1" } : ApiConfig).apiKey = "" ∧
    getHospitalsByLocation
        { apiKey := "", apiUrl := "https://api.healthcare.gov/api/v1" } c6Env
        initialStorage (some "Springfield") =
      (initialStorage.getApprovedHospitals, initialStorage) :=
  ⟨rfl,
   c6_sync_unavailable_fallback
     { apiKey := "", apiUrl := "https://api.healthcare.gov/api/v1" } c6Env
     initialStorage (some "Springfield") (Or.inl rfl)⟩

/-- C9: When the external source is unavailable, the directory-sync
hospital listing is the same for every value of the location argument:
the location filter only parameterizes the remote fetch, which the local
fallback never performs. -/
theorem c9_fallback_ignores_location (cfg : ApiConfig) (env : RemoteEnv) (s : MemStorage)
    (hun : isApiAvailable cfg env.probe = false) (loc1 loc2 : Option String) :
    getHospitalsByLocation cfg env s loc1 = getHospitalsByLocation cfg env s loc2 := by
  unfold getHospitalsByLocation
  rw [hun]
  rfl

/-- The environment used by the C9 witness: unavailable probe, but a
fetch whose response genuinely depends on the location parameter. -/
def c9Env : RemoteEnv :=
  { probe := ProbeResult.err
    fetch := fun loc =>
      match loc with
      | some _ =>
          FetchResult.ok
            [{ id := "X", name := "Remote", address :=
                { street := "s", city := "c", state := "st", zipCode := "z" }
               phone := "p", email := "e", website := "", beds := []
               location := { lat := 0, lng := 0 } }]
      | none => FetchResult.err }

/-- Witness for C9: two different locations give identical results under
an unavailable source, even though the fetch oracle differs on them. -/
theorem c9_fallback_ignores_location_witness :
    isApiAvailable { apiKey := "k", apiUrl := "u" } c9Env.probe = false ∧
    getHospitalsByLocation { apiKey := "k", apiUrl := "u" } c9Env initialStorage
        (some "Springfield") =
      getHospitalsByLocation { apiKey := "k", apiUrl := "u" } c9Env initialStorage none :=
  ⟨by decide,
   c9_fallback_ignores_location { apiKey := "k", apiUrl := "u" } c9Env initialStorage
     (by decide) (some "Springfield") none⟩

/-! ## C7: no duplicate hospitals across repeated syncs -/

theorem getEntry_some_decomp {α : Type} {m : List (Nat × α)} {k : Nat} {x : α}
    (h : getEntry m k = some x) (hnodup : (keys m).Nodup) :
    ∃ m1 m2, m = m1 ++ (k, x) :: m2 ∧ (∀ q ∈ m1, q.1 ≠ k) ∧ (∀ q ∈ m2, q.1 ≠ k) := by
  unfold getEntry at h
  rw [Option.map_eq_some'] at h
  obtain ⟨pr, hpr, hpr2⟩ := h
  obtain ⟨m1, m2, heq, hpx, _⟩ := find?_eq_some_decomp hpr
  have hk : pr.1 = k := by simpa using hpx
  have hpreq : pr = (k, x) := by rw [← hk, ← hpr2]
  rw [hpreq] at heq
  have hnd : (keys (m1 ++ (k, x) :: m2)).Nodup := heq ▸ hnodup
  exact ⟨m1, m2, heq, (keys_nodup_split hnd).1, (keys_nodup_split hnd).2⟩

/-- Number of local hospitals whose username matches `u`
case-insensitively (how `getHospitalByUsername` matches). -/
def hUserCount (s : MemStorage) (u : String) : Nat :=
  (vals s.hospitals).countP (fun h => h.username.toLower == u.toLower)

/-- Well-formed hospital-map keys. -/
def HospWF (s : MemStorage) : Prop :=
  (keys s.hospitals).Nodup ∧ ∀ p ∈ s.hospitals, p.1 < s.hospitalCurrentId

theorem createHospital_char (s : MemStorage) (ins : InsertHospital)
    (hwf : HospWF s) :
    (s.createHospital ins).2.hospitals =
      s.hospitals ++ [(s.hospitalCurrentId, (s.createHospital ins).1)] ∧
    (s.createHospital ins).2.hospitalCurrentId = s.hospitalCurrentId + 1 ∧
    (s.createHospital ins).1.username = ins.username := by
  have hf : ∀ p ∈ s.hospitals, p.1 ≠ s.hospitalCurrentId :=
    fun p hp => Nat.ne_of_lt (hwf.2 p hp)
  refine ⟨?_, rfl, rfl⟩
  show (s.createHospital ins).2.hospitals = _
  unfold MemStorage.createHospital
  dsimp only
  rw [setEntry_of_fresh hf]

theorem hospWF_createHospital (s : MemStorage) (ins : InsertHospital)
    (hwf : HospWF s) : HospWF (s.createHospital ins).2 := by
  obtain ⟨hch, hid, _⟩ := createHospital_char s ins hwf
  constructor
  · rw [hch, keys_append, List.nodup_append]
    refine ⟨hwf.1, ?_, ?_⟩
    · show (keys [(s.hospitalCurrentId, _)]).Nodup
      simp [keys]
    · intro a ha hb
      obtain ⟨q, hq, rfl⟩ := List.mem_map.mp ha
      have hlt := hwf.2 q hq
      have heq : q.1 = s.hospitalCurrentId := by simpa [keys] using hb
      omega
  · rw [hch, hid]
    intro p hp
    rcases List.mem_append.mp hp with hp1 | hp2
    · exact Nat.lt_succ_of_lt (hwf.2 p hp1)
    · rcases List.mem_singleton.mp hp2 with rfl
      exact Nat.lt_succ_self _

theorem hUserCount_createHospital (s : MemStorage) (ins : InsertHospital) (u : String)
    (hwf : HospWF s) :
    hUserCount (s.createHospital ins).2 u =
      hUserCount s u + (if ins.username.toLower == u.toLower then 1 else 0) := by
  obtain ⟨hch, _, hun⟩ := createHospital_char s ins hwf
  unfold hUserCount
  rw [hch, vals_append, List.countP_append]
  congr 1
  simp [vals, List.countP_cons, hun]

theorem hUserCount_updateHospitalApproval (s : MemStorage) (id : Nat) (b : Bool)
    (u : String) (hwf : HospWF s) :
    HospWF (s.updateHospitalApproval id b).2 ∧
    hUserCount (s.updateHospitalApproval id b).2 u = hUserCount s u := by
  cases hh : s.getHospital id with
  | none =>
    have hchar : (s.updateHospitalApproval id b).2 = s := by
      unfold MemStorage.updateHospitalApproval
      simp [hh]
    rw [hchar]
    exact ⟨hwf, rfl⟩
  | some hosp =>
    obtain ⟨m1, m2, heq, h1, h2⟩ := getEntry_some_decomp hh hwf.1
    have hset : setEntry s.hospitals id { hosp with approved := b } =
        m1 ++ (id, { hosp with approved := b }) :: m2 := by
      rw [heq]
      exact setEntry_replace _ h1 h2
    have hchar : (s.updateHospitalApproval id b).2 =
        { s with hospitals := m1 ++ (id, { hosp with approved := b }) :: m2 } := by
      unfold MemStorage.updateHospitalApproval
      rw [hh]
      dsimp only
      rw [hset]
    rw [hchar]
    have hmem : (id, hosp) ∈ s.hospitals := by
      rw [heq]
      exact List.mem_append.mpr (Or.inr (List.mem_cons_self _ _))
    refine ⟨⟨?_, ?_⟩, ?_⟩
    · show (keys (m1 ++ (id, _) :: m2)).Nodup
      rw [keys_append, keys_cons]
      have htmp := hwf.1
      rw [heq, keys_append, keys_cons] at htmp
      exact htmp
    · show ∀ p ∈ m1 ++ (id, _) :: m2, p.1 < s.hospitalCurrentId
      intro p hp
      rcases List.mem_append.mp hp with hp1 | hp2
      · exact hwf.2 p (by rw [heq]; exact List.mem_append.mpr (Or.inl hp1))
      · rcases List.mem_cons.mp hp2 with rfl | hp3
        · exact hwf.2 (id, hosp) hmem
        · exact hwf.2 p
            (by rw [heq]; exact List.mem_append.mpr (Or.inr (List.mem_cons_of_mem _ hp3)))
    · show hUserCount _ u = hUserCount s u
      unfold hUserCount
      rw [heq, vals_append, vals_cons, vals_append, vals_cons,
        List.countP_append, List.countP_append, List.countP_cons, List.countP_cons]

theorem updateBed_hosp_frame (s : MemStorage) (id : Nat) (p : BedPatch) :
    (s.updateBed id p).2.hospitals = s.hospitals ∧
    (s.updateBed id p).2.hospitalCurrentId = s.hospitalCurrentId := by
  unfold MemStorage.updateBed
  cases h : s.getBed id with
  | none => exact ⟨rfl, rfl⟩
  | some bed => exact ⟨rfl, rfl⟩

theorem processApiBed_hosp_frame (s : MemStorage) (mp : List (String × Nat))
    (hid : Nat) (b : ApiBedEntry) :
    (processApiBed s mp hid b).1.hospitals = s.hospitals ∧
    (processApiBed s mp hid b).1.hospitalCurrentId = s.hospitalCurrentId := by
  unfold processApiBed
  dsimp only [MemStorage.createBedType]
  by_cases h0 : ((lookupAssoc mp b.type.toLower).getD 0) = 0
  · rw [if_pos h0]
    dsimp only
    split
    · exact updateBed_hosp_frame _ _ _
    · exact ⟨rfl, rfl⟩
  · rw [if_neg h0]
    dsimp only
    split
    · exact updateBed_hosp_frame _ _ _
    · exact ⟨rfl, rfl⟩

theorem processHospitalBeds_hosp_frame (s : MemStorage) (hid : Nat)
    (l : List ApiBedEntry) :
    (processHospitalBeds s hid l).hospitals = s.hospitals ∧
    (processHospitalBeds s hid l).hospitalCurrentId = s.hospitalCurrentId := by
  unfold processHospitalBeds
  dsimp only
  suffices H : ∀ (l : List ApiBedEntry) (acc : MemStorage × List (String × Nat)),
      ((l.foldl (fun acc b => processApiBed acc.1 acc.2 hid b) acc)).1.hospitals =
        acc.1.hospitals ∧
      ((l.foldl (fun acc b => processApiBed acc.1 acc.2 hid b) acc)).1.hospitalCurrentId =
        acc.1.hospitalCurrentId by
    exact H l _
  intro l
  induction l with
  | nil => intro acc; exact ⟨rfl, rfl⟩
  | cons hd tl ih =>
    intro acc
    rw [List.foldl_cons]
    obtain ⟨hA, hB⟩ := ih (processApiBed acc.1 acc.2 hid hd)
    obtain ⟨hC, hD⟩ := processApiBed_hosp_frame acc.1 acc.2 hid hd
    exact ⟨hA.trans hC, hB.trans hD⟩

/-- `HospWF` only looks at hospitals and the hospital id counter. -/
theorem HospWF.of_frame {s s' : MemStorage} (hwf : HospWF s)
    (h1 : s'.hospitals = s.hospitals) (h2 : s'.hospitalCurrentId = s.hospitalCurrentId) :
    HospWF s' := by
  constructor
  · rw [h1]; exact hwf.1
  · rw [h1, h2]; exact hwf.2

theorem hUserCount_of_frame {s s' : MemStorage} (u : String)
    (h1 : s'.hospitals = s.hospitals) :
    hUserCount s' u = hUserCount s u := by
  unfold hUserCount
  rw [h1]

/-- `countP` vanishes on a map whose username search failed. -/
theorem hUserCount_eq_zero_of_find_none {s : MemStorage} {u : String}
    (h : s.getHospitalByUsername u = none) : hUserCount s u = 0 := by
  unfold MemStorage.getHospitalByUsername at h
  rw [List.find?_eq_none] at h
  unfold hUserCount
  rw [List.countP_eq_zero]
  intro a ha
  exact h a ha

/-- One sync iteration keeps the per-username count at most 1. -/
theorem hUserCount_syncApiHospital (acc : List Hospital × MemStorage) (hd : ApiHospital)
    (u : String) (hwf : HospWF acc.2) (hc : hUserCount acc.2 u ≤ 1) :
    HospWF (syncApiHospital acc hd).2 ∧ hUserCount (syncApiHospital acc hd).2 u ≤ 1 := by
  cases hacc : acc with
  | mk hs st =>
    rw [hacc] at hwf hc
    cases hu : st.getHospitalByUsername ("hospital_" ++ hd.id) with
    | some hosp =>
      have hchar : (syncApiHospital (hs, st) hd).2 = st := by
        unfold syncApiHospital
        simp [hu]
      rw [hchar]
      exact ⟨hwf, hc⟩
    | none =>
      cases hc1 : st.createHospital (transformHospitalData hd) with
      | mk created st1 =>
        cases hc2 : st1.updateHospitalApproval created.id true with
        | mk approvedH st2 =>
          have hchar : (syncApiHospital (hs, st) hd).2 =
              processHospitalBeds st2 (approvedH.getD created).id hd.beds := by
            unfold syncApiHospital
            dsimp only
            rw [hu, hc1, hc2]
          rw [hchar]
          have hwf1 : HospWF st1 := by
            have htmp := hospWF_createHospital st (transformHospitalData hd) hwf
            rw [hc1] at htmp
            exact htmp
          have hcount1 : hUserCount st1 u = hUserCount st u +
              (if ("hospital_" ++ hd.id).toLower == u.toLower then 1 else 0) := by
            have htmp := hUserCount_createHospital st (transformHospitalData hd) u hwf
            rw [hc1] at htmp
            exact htmp
          have hle1 : hUserCount st1 u ≤ 1 := by
            by_cases hcase : (("hospital_" ++ hd.id).toLower == u.toLower) = true
            · have h0 : hUserCount st ("hospital_" ++ hd.id) = 0 :=
                hUserCount_eq_zero_of_find_none hu
              have hlow : ("hospital_" ++ hd.id).toLower = u.toLower := by
                simpa using hcase
              have hequ : hUserCount st u = hUserCount st ("hospital_" ++ hd.id) := by
                unfold hUserCount
                congr 1
                funext h
                rw [hlow]
              rw [hcount1, if_pos hcase, hequ, h0]
            · rw [hcount1, if_neg hcase]
              simpa using hc
          have htmp2 := hUserCount_updateHospitalApproval st1 created.id true u hwf1
          rw [hc2] at htmp2
          obtain ⟨hwf2, hcnt2⟩ := htmp2
          obtain ⟨hfr1, hfr2⟩ :=
            processHospitalBeds_hosp_frame st2 (approvedH.getD created).id hd.beds
          refine ⟨HospWF.of_frame hwf2 hfr1 hfr2, ?_⟩
          rw [hUserCount_of_frame u hfr1, hcnt2]
          exact hle1

/-- Syncing a whole remote hospital list keeps the per-username count
at most 1. -/
theorem hUserCount_foldSync (data : List ApiHospital) (acc : List Hospital × MemStorage)
    (u : String) (hwf : HospWF acc.2) (hc : hUserCount acc.2 u ≤ 1) :
    HospWF (data.foldl syncApiHospital acc).2 ∧
    hUserCount (data.foldl syncApiHospital acc).2 u ≤ 1 := by
  induction data generalizing acc with
  | nil => exact ⟨hwf, hc⟩
  | cons hd tl ih =>
    rw [List.foldl_cons]
    obtain ⟨hwf', hc'⟩ := hUserCount_syncApiHospital acc hd u hwf hc
    exact ih _ hwf' hc'

/-- A single directory-sync call keeps the per-username count at
most 1. -/
theorem hUserCount_getHospitalsByLocation (cfg : ApiConfig) (env : RemoteEnv)
    (s : MemStorage) (loc : Option String) (u : String)
    (hwf : HospWF s) (hc : hUserCount s u ≤ 1) :
    HospWF (getHospitalsByLocation cfg env s loc).2 ∧
    hUserCount (getHospitalsByLocation cfg env s loc).2 u ≤ 1 := by
  unfold getHospitalsByLocation
  cases hav : isApiAvailable cfg env.probe with
  | false => exact ⟨hwf, hc⟩
  | true =>
    cases hf : env.fetch loc with
    | err => exact ⟨hwf, hc⟩
    | ok data => exact hUserCount_foldSync data ([], s) u hwf hc

/-- C7: Repeated directory-sync calls create at most one local hospital
record mapped from a given remote id: across any sequence of
`getHospitalsByLocation` calls (each with its own configuration,
external environment, and location), the number of local hospitals
whose username case-insensitively matches the derived identifier
`hospital_<id>` never exceeds 1, provided it started at most 1 on a
store with well-formed hospital keys.  In particular a second sync
returning the same remote hospital does not create a duplicate. -/
theorem c7_sync_no_duplicate_hospitals (s : MemStorage) (rid : String)
    (calls : List (ApiConfig × RemoteEnv × Option String))
    (hwf : HospWF s) (hc : hUserCount s ("hospital_" ++ rid) ≤ 1) :
    hUserCount
      (calls.foldl (fun st c => (getHospitalsByLocation c.1 c.2.1 st c.2.2).2) s)
      ("hospital_" ++ rid) ≤ 1 := by
  suffices H : ∀ (calls : List (ApiConfig × RemoteEnv × Option String)) (s : MemStorage),
      HospWF s → hUserCount s ("hospital_" ++ rid) ≤ 1 →
      HospWF (calls.foldl (fun st c => (getHospitalsByLocation c.1 c.2.1 st c.2.2).2) s) ∧
      hUserCount
        (calls.foldl (fun st c => (getHospitalsByLocation c.1 c.2.1 st c.2.2).2) s)
        ("hospital_" ++ rid) ≤ 1 by
    exact (H calls s hwf hc).2
  intro calls
  induction calls with
  | nil =>
    intro s h1 h2
    exact ⟨h1, h2⟩
  | cons c tl ih =>
    intro s h1 h2
    rw [List.foldl_cons]
    obtain ⟨h1', h2'⟩ :=
      hUserCount_getHospitalsByLocation c.1 c.2.1 s c.2.2 ("hospital_" ++ rid) h1 h2
    exact ih _ h1' h2'

/-- The remote environment used by the C7 witness: an available source
whose fetch always returns the same remote hospital `X`. -/
def c7Env : RemoteEnv :=
  { probe := ProbeResult.ok 200
    fetch := fun _ =>
      FetchResult.ok
        [{ id := "X", name := "Remote X", address :=
            { street := "s", city := "c", state := "st", zipCode := "z" }
           phone := "p", email := "e", website := "", beds := [{ type := "icu", total := 3, available := 2 }]
           location := { lat := 1, lng := 2 } }] }

/-- Witness for C7: two syncs of the same remote hospital, starting from
the freshly constructed store. -/
theorem c7_sync_no_duplicate_hospitals_witness :
    HospWF initialStorage ∧
    hUserCount initialStorage ("hospital_" ++ "X") ≤ 1 ∧
    hUserCount
      (([({ apiKey := "k", apiUrl := "u" }, c7Env, none),
         ({ apiKey := "k", apiUrl := "u" }, c7Env, none)] :
          List (ApiConfig × RemoteEnv × Option String)).foldl
        (fun st c => (getHospitalsByLocation c.1 c.2.1 st c.2.2).2) initialStorage)
      ("hospital_" ++ "X") ≤ 1 :=
  ⟨⟨by decide, by decide⟩, by decide,
   c7_sync_no_duplicate_hospitals initialStorage "X"
     [({ apiKey := "k", apiUrl := "u" }, c7Env, none),
      ({ apiKey := "k", apiUrl := "u" }, c7Env, none)]
     ⟨by decide, by decide⟩ (by decide)⟩

/-! ## C8: remote bed ingestion -/

/-- The lowercased name-to-id map agrees with the stored bed types. -/
def bedTypeMapConsistent (mp : List (String × Nat)) (s : MemStorage) : Prop :=
  ∀ n tid, lookupAssoc mp n = some tid → tid ≠ 0 →
    ∃ bt ∈ vals s.bedTypes, bt.id = tid ∧ bt.name.toLower = n

theorem updateBed_bedTypes (s : MemStorage) (id : Nat) (p : BedPatch) :
    (s.updateBed id p).2.bedTypes = s.bedTypes := by
  unfold MemStorage.updateBed
  cases h : s.getBed id with
  | none => rfl
  | some bed => rfl

theorem mem_vals_setEntry {α : Type} (m : List (Nat × α)) (k : Nat) (v : α) :
    v ∈ vals (setEntry m k v) := by
  unfold setEntry
  by_cases h : m.any (fun p => p.1 == k) = true
  · rw [if_pos h]
    rw [List.any_eq_true] at h
    obtain ⟨p, hp, hpk⟩ := h
    have hmem : (k, v) ∈ m.map (fun p => if p.1 == k then (k, v) else p) :=
      List.mem_map.mpr ⟨p, hp, by rw [if_pos hpk]⟩
    exact List.mem_map.mpr ⟨(k, v), hmem, rfl⟩
  · rw [if_neg h]
    rw [vals_append]
    exact List.mem_append.mpr (Or.inr (by simp [vals]))

/-- C8: For every remote bed-type entry ingested by
`processHospitalBeds`, the bed type is resolved through the
case-insensitive name map or lazily created when absent — either way the
resulting store holds a bed type whose lowercased name matches the
entry's — and then, if a local bed record for (hospital, resolved type)
exists, its `totalBeds`/`availableBeds` are destructively overwritten
with the remote values (no new record), else a new bed record carrying
those values is created. -/
theorem c8_bed_ingestion (s : MemStorage) (mp : List (String × Nat)) (hid : Nat)
    (b : ApiBedEntry)
    (hmp : bedTypeMapConsistent mp s)
    (hnodup : (keys s.beds).Nodup)
    (hal : ∀ p ∈ s.beds, p.2.id = p.1)
    (hlt : ∀ p ∈ s.beds, p.1 < s.bedCurrentId)
    (hpos : 0 < s.bedTypeCurrentId) :
    ∃ tid, tid ≠ 0 ∧
      (∃ bt ∈ vals (processApiBed s mp hid b).1.bedTypes,
         bt.id = tid ∧ bt.name.toLower = b.type.toLower) ∧
      (match s.getBedByHospitalAndType hid tid with
       | some ex =>
           (processApiBed s mp hid b).1.getBed ex.id =
             some { ex with totalBeds := b.total, availableBeds := b.available } ∧
           (processApiBed s mp hid b).1.beds.length = s.beds.length
       | none =>
           (processApiBed s mp hid b).1.beds =
             s.beds ++ [(s.bedCurrentId,
               { id := s.bedCurrentId, hospitalId := hid, bedTypeId := tid,
                 totalBeds := b.total, availableBeds := b.available,
                 pricePerNight := none })]) := by
  by_cases h0 : ((lookupAssoc mp b.type.toLower).getD 0) = 0
  · -- the bed type is lazily created with the fresh id
    have hcongr : MemStorage.getBedByHospitalAndType
        { s with
          bedTypes := setEntry s.bedTypes s.bedTypeCurrentId
            { id := s.bedTypeCurrentId, name := b.type, description := none, icon := none },
          bedTypeCurrentId := s.bedTypeCurrentId + 1 } hid s.bedTypeCurrentId
        = s.getBedByHospitalAndType hid s.bedTypeCurrentId :=
      getBedByHospitalAndType_congr hid s.bedTypeCurrentId rfl
    cases hf : s.getBedByHospitalAndType hid s.bedTypeCurrentId with
    | some ex =>
      obtain ⟨k, L1, L2, hLeq, hbh, hbt, hfirst⟩ := getBedByHospitalAndType_some_decomp hf
      have hexmem : (k, ex) ∈ s.beds := by
        rw [hLeq]
        exact List.mem_append.mpr (Or.inr (List.mem_cons_self _ _))
      have hkid : ex.id = k := hal (k, ex) hexmem
      rw [← hkid] at hLeq
      have hupd := updateBed_decomp
        (s := { s with
          bedTypes := setEntry s.bedTypes s.bedTypeCurrentId
            { id := s.bedTypeCurrentId, name := b.type, description := none, icon := none },
          bedTypeCurrentId := s.bedTypeCurrentId + 1 })
        { totalBeds := some b.total, availableBeds := some b.available }
        (show _ = L1 ++ (ex.id, ex) :: L2 from hLeq)
        (show (keys _).Nodup from hnodup)
      rw [applyPatch_total_available] at hupd
      have hstate : (processApiBed s mp hid b).1 =
          { s with
            bedTypes := setEntry s.bedTypes s.bedTypeCurrentId
              { id := s.bedTypeCurrentId, name := b.type, description := none, icon := none },
            bedTypeCurrentId := s.bedTypeCurrentId + 1,
            beds := L1 ++ (ex.id,
              { ex with totalBeds := b.total, availableBeds := b.available }) :: L2 } := by
        unfold processApiBed
        dsimp only [MemStorage.createBedType]
        rw [if_pos h0]
        dsimp only
        rw [hcongr, hf]
        dsimp only
        rw [hupd]
      have hnd : (keys (L1 ++ (ex.id, ex) :: L2)).Nodup := hLeq ▸ hnodup
      have hsplit := keys_nodup_split hnd
      refine ⟨s.bedTypeCurrentId, by omega, ?_, ?_⟩
      · rw [hstate]
        refine ⟨{ id := s.bedTypeCurrentId, name := b.type, description := none, icon := none },
          ?_, rfl, rfl⟩
        exact mem_vals_setEntry _ _ _
      · rw [hf]
        constructor
        · rw [hstate]
          show getEntry (L1 ++ (ex.id,
              { ex with totalBeds := b.total, availableBeds := b.available }) :: L2) ex.id = _
          exact getEntry_decomp hsplit.1
        · rw [hstate]
          show (L1 ++ (ex.id, _) :: L2).length = s.beds.length
          rw [hLeq]
          simp
    | none =>
      have hfr : ∀ p ∈ s.beds, p.1 ≠ s.bedCurrentId :=
        fun p hp => Nat.ne_of_lt (hlt p hp)
      have hstate : (processApiBed s mp hid b).1 =
          { s with
            bedTypes := setEntry s.bedTypes s.bedTypeCurrentId
              { id := s.bedTypeCurrentId, name := b.type, description := none, icon := none },
            bedTypeCurrentId := s.bedTypeCurrentId + 1,
            beds := s.beds ++ [(s.bedCurrentId,
              { id := s.bedCurrentId, hospitalId := hid, bedTypeId := s.bedTypeCurrentId,
                totalBeds := b.total, availableBeds := b.available, pricePerNight := none })],
            bedCurrentId := s.bedCurrentId + 1 } := by
        unfold processApiBed
        dsimp only [MemStorage.createBedType]
        rw [if_pos h0]
        dsimp only
        rw [hcongr, hf]
        dsimp only [MemStorage.createBed]
        rw [setEntry_of_fresh hfr]
      refine ⟨s.bedTypeCurrentId, by omega, ?_, ?_⟩
      · rw [hstate]
        refine ⟨{ id := s.bedTypeCurrentId, name := b.type, description := none, icon := none },
          ?_, rfl, rfl⟩
        exact mem_vals_setEntry _ _ _
      · rw [hf, hstate]
  · -- the bed type resolves through the map
    cases hl : lookupAssoc mp b.type.toLower with
    | none =>
      exfalso
      apply h0
      rw [hl]
      rfl
    | some t =>
      have htid : (lookupAssoc mp b.type.toLower).getD 0 = t := by
        rw [hl]
        rfl
      have ht0 : t ≠ 0 := fun h => h0 (by rw [htid, h])
      obtain ⟨bt, hbtmem, hbtid, hbtname⟩ := hmp _ t hl ht0
      cases hf : s.getBedByHospitalAndType hid t with
      | some ex =>
        obtain ⟨k, L1, L2, hLeq, hbh, hbt2, hfirst⟩ := getBedByHospitalAndType_some_decomp hf
        have hexmem : (k, ex) ∈ s.beds := by
          rw [hLeq]
          exact List.mem_append.mpr (Or.inr (List.mem_cons_self _ _))
        have hkid : ex.id = k := hal (k, ex) hexmem
        rw [← hkid] at hLeq
        have hupd := updateBed_decomp (s := s)
          { totalBeds := some b.total, availableBeds := some b.available }
          hLeq hnodup
        rw [applyPatch_total_available] at hupd
        have hstate : (processApiBed s mp hid b).1 =
            { s with beds := L1 ++ (ex.id,
                { ex with totalBeds := b.total, availableBeds := b.available }) :: L2 } := by
          unfold processApiBed
          dsimp only
          rw [if_neg h0]
          dsimp only
          rw [htid, hf]
          dsimp only
          rw [hupd]
        have hnd : (keys (L1 ++ (ex.id, ex) :: L2)).Nodup := hLeq ▸ hnodup
        have hsplit := keys_nodup_split hnd
        refine ⟨t, ht0, ?_, ?_⟩
        · rw [hstate]
          exact ⟨bt, hbtmem, hbtid, hbtname⟩
        · rw [hf]
          constructor
          · rw [hstate]
            show getEntry (L1 ++ (ex.id,
                { ex with totalBeds := b.total, availableBeds := b.available }) :: L2) ex.id = _
            exact getEntry_decomp hsplit.1
          · rw [hstate]
            show (L1 ++ (ex.id, _) :: L2).length = s.beds.length
            rw [hLeq]
            simp
      | none =>
        have hfr : ∀ p ∈ s.beds, p.1 ≠ s.bedCurrentId :=
          fun p hp => Nat.ne_of_lt (hlt p hp)
        have hstate : (processApiBed s mp hid b).1 =
            { s with
              beds := s.beds ++ [(s.bedCurrentId,
                { id := s.bedCurrentId, hospitalId := hid, bedTypeId := t,
                  totalBeds := b.total, availableBeds := b.available,
                  pricePerNight := none })],
              bedCurrentId := s.bedCurrentId + 1 } := by
          unfold processApiBed
          dsimp only
          rw [if_neg h0]
          dsimp only
          rw [htid, hf]
          dsimp only [MemStorage.createBed]
          rw [setEntry_of_fresh hfr]
        refine ⟨t, ht0, ?_, ?_⟩
        · rw [hstate]
          exact ⟨bt, hbtmem, hbtid, hbtname⟩
        · rw [hf, hstate]

/-- The empty lowercased name map, vacuously consistent with any
store (every entry then takes the lazy-creation path, as on the first
sync against a store whose bed-type names do not match). -/
def c8Map : List (String × Nat) := []

/-- `c8Map` is consistent with the freshly constructed store. -/
theorem c8MapConsistent : bedTypeMapConsistent c8Map initialStorage := by
  intro n tid h htid
  simp [lookupAssoc, c8Map] at h

/-- Witness for C8: ingesting a remote "ICU"/3/2 entry into the fresh
store through the consistent map. -/
theorem c8_bed_ingestion_witness :
    bedTypeMapConsistent c8Map initialStorage ∧
    (∃ tid, tid ≠ 0 ∧
      (∃ bt ∈ vals (processApiBed initialStorage c8Map 1
          { type := "ICU", total := 3, available := 2 }).1.bedTypes,
         bt.id = tid ∧ bt.name.toLower = ("ICU" : String).toLower) ∧
      (match initialStorage.getBedByHospitalAndType 1 tid with
       | some ex =>
           (processApiBed initialStorage c8Map 1
               { type := "ICU", total := 3, available := 2 }).1.getBed ex.id =
             some { ex with totalBeds := 3, availableBeds := 2 } ∧
           (processApiBed initialStorage c8Map 1
               { type := "ICU", total := 3, available := 2 }).1.beds.length =
             initialStorage.beds.length
       | none =>
           (processApiBed initialStorage c8Map 1
               { type := "ICU", total := 3, available := 2 }).1.beds =
             initialStorage.beds ++ [(initialStorage.bedCurrentId,
               { id := initialStorage.bedCurrentId, hospitalId := 1, bedTypeId := tid,
                 totalBeds := 3, availableBeds := 2, pricePerNight := none })])) :=
  ⟨c8MapConsistent,
   c8_bed_ingestion initialStorage c8Map 1 { type := "ICU", total := 3, available := 2 }
     c8MapConsistent (by decide) (by decide) (by decide) (by decide)⟩

end GoogleDev
